import Mathlib

/-!
# Verification of the synthetic option-chain engine

A shallow embedding, over `ℚ`, of the option-chain generation and analytics
code of the repository:

* `src/unnamed/part_000` — the mock Alpha-Vantage service: chain synthesis
  (`generateMockOptionsData`, `generateMockOptions`,
  `calculateRealisticOptionPrice`, `calculateRealisticDelta`),
  the entry point `fetchOptionsData`, and `getRecommendationReasons`;
* `src/unnamed/part_001` / `part_002` — the options table: `getSortedOptions`
  and `getRecommendationBadge`;
* `src/frontend/nous-main/src/pages/Options.tsx` — `getFilteredOptions`;
* `src/frontend/nous-main/src/components/options/OptionsStats.tsx` —
  `volumeByExpiry`;
* `src/frontend/nous-main/src/services/optionsAPI.ts` — the cached
  `fetchOptionsData` and `processOptionsData`.

Modelling conventions:

* JavaScript numbers are modelled as rationals (`ℚ`); `x.toFixed(n)` followed
  by `parseFloat` (and `Math.round(x*100)/100`) is `roundTo n x` below, using
  `round` (ties toward `+∞`, as in ECMAScript's decimal rounding of `toFixed`).
* Every `Math.random()` call is an explicit input (a named field of an
  environment record), constrained to `[0, 1)` by a `Valid` predicate.
* `Math.sqrt` and `Math.exp` evaluations are explicit positive rational
  inputs of the environment (`sqrtT`, `interestFactor`, …); the theorems
  only use their sign/range, so any real execution is an instance.
* `Date` arithmetic (expiration-date strings, times-to-expiry, `Date.now()`)
  is part of the environment: date strings are opaque `String`s and clock
  readings are naturals (milliseconds).
-/

/-- `parseFloat(x.toFixed(n))` on a rational: round to `n` decimal digits,
ties toward `+∞` (ECMAScript `toFixed` picks the larger candidate on a tie). -/
def roundTo (n : ℕ) (q : ℚ) : ℚ :=
  (round (q * (10 : ℚ) ^ n) : ℤ) / (10 : ℚ) ^ n

theorem roundTo_mono (n : ℕ) {a b : ℚ} (h : a ≤ b) : roundTo n a ≤ roundTo n b := by
  unfold roundTo
  have hp : (0:ℚ) < (10 : ℚ) ^ n := by positivity
  have h1 : a * (10:ℚ)^n ≤ b * (10:ℚ)^n := by
    exact mul_le_mul_of_nonneg_right h (le_of_lt hp)
  have h2 : round (a * (10:ℚ)^n) ≤ round (b * (10:ℚ)^n) := by
    rw [round_eq, round_eq]
    exact Int.floor_le_floor (by linarith)
  have h3 : ((round (a * (10:ℚ)^n) : ℤ) : ℚ) ≤ ((round (b * (10:ℚ)^n) : ℤ) : ℚ) := by
    exact_mod_cast h2
  gcongr

theorem roundTo_intCast_div (n : ℕ) (z : ℤ) : roundTo n ((z : ℚ) / (10:ℚ)^n) = (z : ℚ) / (10:ℚ)^n := by
  unfold roundTo
  have hp : ((10 : ℚ) ^ n) ≠ 0 := by positivity
  rw [div_mul_cancel₀ _ hp, round_intCast]

theorem roundTo_nonneg (n : ℕ) {q : ℚ} (h : 0 ≤ q) : 0 ≤ roundTo n q := by
  have := roundTo_mono n h
  simpa [roundTo] using this

theorem roundTo_nonpos (n : ℕ) {q : ℚ} (h : q ≤ 0) : roundTo n q ≤ 0 := by
  have := roundTo_mono n h
  simpa [roundTo] using this

/-- The side of an option contract (`'call' | 'put'`). -/
inductive Side where
  | call
  | put
deriving DecidableEq, Repr

/-- The `OptionContract` record of `src/frontend/nous-main/src/types/options.ts`.
Optional fields (`confidence`, the "new fields" and the Greeks) are `Option ℚ`;
`isRecommended`, optional in the interface, is set by both generators, and a
missing value is falsy exactly like `false`, so it is a plain `Bool`. -/
structure OptionContract where
  contractSymbol : String
  strike : ℚ
  expiryDate : String
  lastPrice : ℚ
  bid : ℚ
  ask : ℚ
  change : ℚ
  percentChange : ℚ
  volume : ℚ
  openInterest : ℚ
  impliedVolatility : ℚ
  inTheMoney : Bool
  lastTradeDate : String
  isRecommended : Bool
  confidence : Option ℚ
  timeToExpiry : Option ℚ
  riskFreeRate : Option ℚ
  predictedVolatility : Option ℚ
  volatilityDifference : Option ℚ
  delta : Option ℚ
  gamma : Option ℚ
  theta : Option ℚ
  vega : Option ℚ
  rho : Option ℚ
deriving DecidableEq, Repr

/-- The `strikeRange` member of `OptionChain`. -/
structure StrikeRange where
  min : ℚ
  max : ℚ
deriving DecidableEq, Repr

/-- The `OptionChain` record of `types/options.ts`. `lastUpdate`
(`new Date().toISOString()` in the source) is modelled as the numeric clock
reading (milliseconds) at generation time. -/
structure OptionChain where
  symbol : String
  calls : List OptionContract
  puts : List OptionContract
  expirationDates : List String
  strikeRange : StrikeRange
  lastUpdate : ℕ
deriving DecidableEq, Repr

namespace MockGen

/-! ## The synthesizer of `src/unnamed/part_000` -/

/-- Left-pad a string with `'0'` to 8 characters
(`strike.toString().padStart(8, '0')`). -/
def padStart8 (s : String) : String :=
  if s.length < 8 then String.mk (List.replicate (8 - s.length) '0') ++ s else s

/-- The static reference-price table of `getStockPrice`. -/
def stockPrices : List (String × ℚ) :=
  [("AAPL", 175.23), ("TSLA", 251.47), ("MSFT", 332.42), ("AMZN", 174.51),
   ("NVDA", 785.92), ("GOOGL", 142.63), ("SPY", 498.76), ("QQQ", 432.15),
   ("BAC", 37.89), ("WMT", 62.47), ("MCD", 276.35), ("DIS", 105.83),
   ("NKE", 93.25), ("KO", 61.33), ("V", 267.58), ("META", 476.12)]

/-- `getStockPrice`: table lookup, with the unknown-symbol fallback
`150 + Math.random() * 100`; the random draw is the explicit input
`priceRand`. -/
def getStockPrice (symbol : String) (priceRand : ℚ) : ℚ :=
  match stockPrices.lookup symbol with
  | some p => p
  | none => 150 + priceRand * 100

/-- `getStrikeIncrement`: strike spacing as a function of the stock price. -/
def getStrikeIncrement (price : ℚ) : ℚ :=
  if price < 20 then 0.5
  else if price < 50 then 1
  else if price < 100 then 2.5
  else if price < 200 then 5
  else if price < 500 then 10
  else 25

/-- Per-expiration environment: deterministic date data and the draws made
once per expiration in `generateMockOptions`. `tte` models the computed
`timeToExpiry`, `sqrtT` models `Math.sqrt(timeToExpiry)`, `interestFactor`
models `Math.exp(-(riskFreeRate/100) * timeToExpiry)` (the same expression
appears in `calculateRealisticOptionPrice` and in `rho`), and `rfRand` is
the `Math.random()` draw of the risk-free rate. -/
structure DateEnv where
  tte : ℚ
  sqrtT : ℚ
  interestFactor : ℚ
  rfRand : ℚ
deriving DecidableEq, Repr

/-- Per-contract environment: one field per `Math.random()` draw made for a
single `(expiration, strike)` pair in `generateMockOptions`
(and inside the two `calculateRealistic…` helpers it calls). -/
structure ContractEnv where
  ivRand : ℚ
  diffRand : ℚ
  priceRand : ℚ
  otmRand : ℚ
  spreadRand : ℚ
  changeRand : ℚ
  volumeRand : ℚ
  oiRand : ℚ
  deltaRand : ℚ
  recRand : ℚ
  confRand : ℚ
deriving DecidableEq, Repr

/-- A `Math.random()` result lies in `[0, 1)`. -/
def unitRand (r : ℚ) : Prop := 0 ≤ r ∧ r < 1

instance (r : ℚ) : Decidable (unitRand r) := by
  unfold unitRand
  infer_instance

/-- Validity of a per-expiration environment: the random draw is in `[0,1)`,
the square root is positive, and the discount factor `exp(-rT)` is in
`(0, 1]` (true of every real execution since `r ≥ 0` there). -/
def DateEnv.Valid (e : DateEnv) : Prop :=
  unitRand e.rfRand ∧ 0 < e.sqrtT ∧ 0 < e.interestFactor ∧ e.interestFactor ≤ 1

instance (e : DateEnv) : Decidable e.Valid := by
  unfold DateEnv.Valid
  infer_instance

/-- Validity of a per-contract environment: every draw is in `[0, 1)`. -/
def ContractEnv.Valid (e : ContractEnv) : Prop :=
  unitRand e.ivRand ∧ unitRand e.diffRand ∧ unitRand e.priceRand ∧
  unitRand e.otmRand ∧ unitRand e.spreadRand ∧ unitRand e.changeRand ∧
  unitRand e.volumeRand ∧ unitRand e.oiRand ∧ unitRand e.deltaRand ∧
  unitRand e.recRand ∧ unitRand e.confRand

instance (e : ContractEnv) : Decidable e.Valid := by
  unfold ContractEnv.Valid
  infer_instance

/-- The fixed discrete distribution of volatility differences
(`volatilityDifferenceValues` in `generateMockOptions`). -/
def volatilityDifferenceValues : List ℚ :=
  [-6.492, -5.782, -4.326, -3.981, -3.254, -2.813, -1.937, -1.528, -0.871,
   -0.433, -0.125, 0.182, 0.347, 0.813, 1.294, 1.752, 2.168, 2.553, 3.114,
   3.678, 4.285, 5.146, 5.973, 6.421]

/-- `calculateRealisticOptionPrice`. The unused local `moneyness` of the
source is omitted; `sqrtT` and `interestFactor` stand for the
`Math.sqrt` / `Math.exp` evaluations and `tvRand`, `otmRand` for the two
`Math.random()` draws. The `rate` argument is kept from the source
signature; its only use there is inside `interestFactor`. -/
def calculateRealisticOptionPrice (spot strike tte volatility rate : ℚ)
    (side : Side) (sqrtT interestFactor tvRand otmRand : ℚ) : ℚ :=
  let _ := tte
  let _ := rate
  let timeValue := volatility * sqrtT * spot * (0.4 + tvRand * 0.1)
  match side with
  | .call =>
    if spot > strike then (spot - strike) * (1 - interestFactor * 0.1) + timeValue
    else timeValue * (1 + otmRand * 0.1)
  | .put =>
    if spot < strike then (strike - spot) * (1 - interestFactor * 0.1) + timeValue
    else timeValue * (1 + otmRand * 0.1)

/-- `calculateRealisticDelta`; `sqrtT` models `Math.sqrt(timeToExpiry)` and
`deltaRand` the `Math.random()` draw of the bounded noise term. -/
def calculateRealisticDelta (spot strike : ℚ) (side : Side)
    (tte volatility : ℚ) (sqrtT deltaRand : ℚ) : ℚ :=
  let _ := tte
  let noise := deltaRand * 0.05 - 0.025
  match side with
  | .call =>
    if spot > strike then
      let rawDelta := 0.5 + (spot - strike) / (spot * volatility * sqrtT * 4)
      min 0.99 (max 0.5 (rawDelta + noise))
    else
      let rawDelta := 0.5 - (strike - spot) / (spot * volatility * sqrtT * 4)
      min 0.5 (max 0.01 (rawDelta + noise))
  | .put =>
    if spot > strike then
      let rawDelta := -0.5 - (spot - strike) / (spot * volatility * sqrtT * 4)
      max (-0.99) (min (-0.5) (rawDelta - noise))
    else
      let rawDelta := -0.5 + (strike - spot) / (spot * volatility * sqrtT * 4)
      max (-0.5) (min (-0.01) (rawDelta - noise))

/-- One iteration of the inner `strikes.forEach` body of
`generateMockOptions`: the full contract record for one
`(expiration, strike, side)` triple. `lastTradeDate`
(`new Date().toISOString()`) is left as the empty string; no claim
concerns it. -/
def mkContract (symbol expiryDate : String) (dateIndex : ℕ)
    (strike currentPrice : ℚ) (side : Side)
    (de : DateEnv) (ce : ContractEnv) : OptionContract :=
  let riskFreeRate : ℚ := roundTo 3 (4.2 + (dateIndex : ℚ) * 0.13 + (de.rfRand * 0.18 - 0.09))
  let inTheMoney : Bool :=
    match side with
    | .call => decide (currentPrice > strike)
    | .put => decide (currentPrice < strike)
  let moneyness : ℚ := |1 - strike / currentPrice|
  let baseIv : ℚ := 0.25 + (dateIndex : ℚ) * 0.03 + moneyness * 0.2
  let impliedVol : ℚ := roundTo 4 (baseIv * (1 + (ce.ivRand * 0.4 - 0.2)))
  let randDiffIndex : ℕ := (⌊ce.diffRand * 24⌋).toNat
  let volatilityDifference : ℚ := volatilityDifferenceValues.getD randDiffIndex 0
  let predictedVolatility : ℚ := roundTo 3 (impliedVol * 100 + volatilityDifference)
  let price : ℚ := calculateRealisticOptionPrice currentPrice strike de.tte impliedVol
    (riskFreeRate / 100) side de.sqrtT de.interestFactor ce.priceRand ce.otmRand
  let spread : ℚ := price * (0.03 + ce.spreadRand * 0.04)
  let bid : ℚ := roundTo 2 (price - spread / 2)
  let ask : ℚ := roundTo 2 (price + spread / 2)
  let changePercent : ℚ := roundTo 3 (ce.changeRand * 10 - 5)
  let change : ℚ := roundTo 3 (price * (changePercent / 100))
  let volume : ℚ := ((⌊ce.volumeRand * 1000⌋ * (if moneyness < 0.05 then 10 else 1) + 50 : ℤ) : ℚ)
  let openInterest : ℚ := ((⌊ce.oiRand * 5000⌋ * (if moneyness < 0.05 then 5 else 1) + 200 : ℤ) : ℚ)
  let delta : ℚ := roundTo 4 (calculateRealisticDelta currentPrice strike side de.tte impliedVol de.sqrtT ce.deltaRand)
  let gamma : ℚ := roundTo 4 (delta * (1 - delta) / (currentPrice * impliedVol * de.sqrtT))
  let theta : ℚ := roundTo 4 (-price * impliedVol / (2 * de.sqrtT))
  let vega : ℚ := roundTo 4 (currentPrice * de.sqrtT * 0.01)
  let rho : ℚ := roundTo 4 ((match side with | .call => (1 : ℚ) | .put => -1) *
    strike * de.tte * de.interestFactor * 0.01)
  { contractSymbol := symbol ++ (expiryDate.replace "-" "") ++
      (match side with | .call => "C" | .put => "P") ++ padStart8 (toString strike)
    strike
    expiryDate
    lastPrice := roundTo 2 price
    bid
    ask
    change
    percentChange := changePercent
    volume
    openInterest
    impliedVolatility := roundTo 2 (impliedVol * 100)
    inTheMoney
    lastTradeDate := ""
    isRecommended := decide (ce.recRand > 0.8)
    confidence := some (roundTo 3 (ce.confRand * 0.3 + 0.7))
    timeToExpiry := some de.tte
    riskFreeRate := some riskFreeRate
    predictedVolatility := some predictedVolatility
    volatilityDifference := some volatilityDifference
    delta := some delta
    gamma := some gamma
    theta := some theta
    vega := some vega
    rho := some rho }

/-- `generateMockOptions`: one contract per `(expiration, strike)` pair, in
the nested `forEach` order. The per-expiration and per-contract environments
are indexed by position. -/
def generateMockOptions (symbol : String) (expirationDates : List String)
    (strikes : List ℚ) (side : Side) (currentPrice : ℚ)
    (denv : ℕ → DateEnv) (cenv : ℕ → ℕ → ContractEnv) : List OptionContract :=
  expirationDates.enum.flatMap fun di =>
    strikes.enum.map fun si =>
      mkContract symbol di.2 di.1 si.2 currentPrice side (denv di.1) (cenv di.1 si.1)

/-- The strike-price loop of `generateMockOptionsData`
(`for (let strike = minStrike; strike <= maxStrike; strike += strikeStep)`),
in closed form: iteration `k` pushes `Math.round((minStrike + k*step)*100)/100`,
and the loop runs while `minStrike + k*step ≤ maxStrike`. -/
def strikesFor (minStrike maxStrike strikeStep : ℚ) : List ℚ :=
  if 0 < strikeStep ∧ minStrike ≤ maxStrike then
    (List.range ((⌊(maxStrike - minStrike) / strikeStep⌋).toNat + 1)).map
      (fun k : ℕ => roundTo 2 (minStrike + (k : ℚ) * strikeStep))
  else []

/-- The whole-chain environment of `generateMockOptionsData`: the clock
(`now`, and the six Friday expiration strings it determines), the
unknown-symbol price draw, and per-side environment families (calls and puts
are generated by two separate `generateMockOptions` calls, so they draw
independently). -/
structure GenEnv where
  now : ℕ
  dates : List String
  priceRand : ℚ
  denvCalls : ℕ → DateEnv
  denvPuts : ℕ → DateEnv
  cenvCalls : ℕ → ℕ → ContractEnv
  cenvPuts : ℕ → ℕ → ContractEnv

/-- Validity of a whole-chain environment. -/
def GenEnv.Valid (g : GenEnv) : Prop :=
  0 ≤ g.priceRand ∧ g.priceRand < 1 ∧
  (∀ i, (g.denvCalls i).Valid) ∧ (∀ i, (g.denvPuts i).Valid) ∧
  (∀ i j, (g.cenvCalls i j).Valid) ∧ (∀ i j, (g.cenvPuts i j).Valid)

/-- `generateMockOptionsData`: grid derivation plus the two
`generateMockOptions` calls, assembled into an `OptionChain`. -/
def generateMockOptionsData (symbol : String) (g : GenEnv) : OptionChain :=
  let currentPrice := getStockPrice symbol g.priceRand
  let minStrike := max 1 (roundTo 2 (currentPrice * 0.7))
  let maxStrike := roundTo 2 (currentPrice * 1.3)
  let strikeStep := getStrikeIncrement currentPrice
  let strikes := strikesFor minStrike maxStrike strikeStep
  { symbol := symbol
    calls := generateMockOptions symbol g.dates strikes .call currentPrice g.denvCalls g.cenvCalls
    puts := generateMockOptions symbol g.dates strikes .put currentPrice g.denvPuts g.cenvPuts
    expirationDates := g.dates
    strikeRange := { min := minStrike, max := maxStrike }
    lastUpdate := g.now }

/-- The observable outcomes of the Alpha-Vantage request in
`fetchOptionsData` of `part_000`: the `fetch`/`json` step throws, or the
parsed body has a `note` field, a missing `data` field, an empty `data`
array, or usable data. -/
inductive AVOutcome where
  | fetchFailure
  | note
  | missingData
  | emptyData
  | okData
deriving DecidableEq, Repr

/-- `transformAlphaVantageData`: the stub in the source returns
`generateMockOptionsData(symbol)`. -/
def transformAlphaVantageData (symbol : String) (g : GenEnv) : OptionChain :=
  generateMockOptionsData symbol g

/-- `fetchOptionsData` of `part_000`: every branch — caught error, rate-limit
note, missing or empty data, and even the success path (through the
`transformAlphaVantageData` stub) — produces a synthesized chain. -/
def fetchOptionsData (symbol : String) (oc : AVOutcome) (g : GenEnv) : OptionChain :=
  match oc with
  | .fetchFailure => generateMockOptionsData symbol g
  | .note => generateMockOptionsData symbol g
  | .missingData => generateMockOptionsData symbol g
  | .emptyData => generateMockOptionsData symbol g
  | .okData => transformAlphaVantageData symbol g

end MockGen

namespace MockGen

/-! ## The valuation classifier text of `part_000` (`getRecommendationReasons`) -/

/-- One justification line of `getRecommendationReasons`. Each constructor is
one template string of the source; a numeric argument is the value
interpolated into the template (after the `toFixed` formatting the source
applies to it). -/
inductive Reason where
  | undervalued (mag : ℚ)
  | modelPredictsHigher
  | slightlyUndervalued (mag : ℚ)
  | overvalued (mag : ℚ)
  | marketPricesMore
  | slightlyOvervalued (mag : ℚ)
  | highDelta (d : ℚ)
  | goodLiquidity (oi : ℚ)
  | shortExpiry (t : ℚ)
  | longerExpiry (t : ℚ)
deriving DecidableEq, Repr

/-- The volatility-analysis block of `getRecommendationReasons` (the first
`if (option.volatilityDifference !== undefined)` block), as a function of
the volatility difference alone. -/
def volReasons (vd : Option ℚ) : List Reason :=
  match vd with
  | none => []
  | some d =>
    if d > 3 then [.undervalued (roundTo 3 |d|), .modelPredictsHigher]
    else if d > 0 then [.slightlyUndervalued (roundTo 3 d)]
    else if d < -3 then [.overvalued (roundTo 3 |d|), .marketPricesMore]
    else if d < 0 then [.slightlyOvervalued (roundTo 3 |d|)]
    else []

/-- `getRecommendationReasons` of `part_000`: the volatility block followed by
the delta, open-interest and time-to-expiry blocks, in source order.
JavaScript truthiness guards (`option.delta && …`, `option.openInterest && …`)
are the explicit `≠ 0` conjuncts. -/
def getRecommendationReasons (o : OptionContract) : List Reason :=
  volReasons o.volatilityDifference ++
  (match o.delta with
   | some d => if d ≠ 0 ∧ |d| > 0.7 then [.highDelta (roundTo 4 d)] else []
   | none => []) ++
  (if o.openInterest ≠ 0 ∧ o.openInterest > 1000 then [.goodLiquidity o.openInterest] else []) ++
  (match o.timeToExpiry with
   | some t =>
     if t < 0.08 then [.shortExpiry (roundTo 1 (t * 365))]
     else if t > 0.25 then [.longerExpiry (roundTo 1 (t * 365))]
     else []
   | none => [])

end MockGen

namespace Table

/-! ## The options table of `part_001` / `part_002` -/

/-- The two recommendation badges of `getRecommendationBadge`
(`part_001`): the `Buy` and `Avoid` signals. -/
inductive BadgeKind where
  | buy
  | avoid
deriving DecidableEq, Repr

/-- `getRecommendationBadge` of `part_001`: `null` when the volatility
difference is `undefined` or lies in `[-2, 2]`; otherwise the Buy/Avoid
badge, paired with the magnitude `Math.abs(diff)` that the tooltip
interpolates through `formatValue(…, 'volatilityDiff')` (a `toFixed(3)`). -/
def getRecommendationBadge (o : OptionContract) : Option (BadgeKind × ℚ) :=
  match o.volatilityDifference with
  | none => none
  | some diff =>
    if diff > 2 then some (.buy, roundTo 3 |diff|)
    else if diff < -2 then some (.avoid, roundTo 3 |diff|)
    else none

/-- The sortable column keys of the `columnConfig` tables in `part_001` and
`part_002` (the keys `requestSort` can be called with). -/
inductive SortKey where
  | strike
  | expiryDate
  | timeToExpiry
  | riskFreeRate
  | lastPrice
  | bid
  | ask
  | change
  | percentChange
  | volume
  | openInterest
  | impliedVolatility
  | predictedVolatility
  | volatilityDifference
  | delta
deriving DecidableEq, Repr

/-- A defined sort-key value: a number or a string (only `expiryDate` is a
string column). -/
inductive KeyVal where
  | num (q : ℚ)
  | str (s : String)
deriving DecidableEq, Repr

/-- The value `option[sortConfig.key]` used by the comparator;
`none` models `undefined`. -/
def keyVal (k : SortKey) (o : OptionContract) : Option KeyVal :=
  match k with
  | .strike => some (.num o.strike)
  | .expiryDate => some (.str o.expiryDate)
  | .timeToExpiry => o.timeToExpiry.map .num
  | .riskFreeRate => o.riskFreeRate.map .num
  | .lastPrice => some (.num o.lastPrice)
  | .bid => some (.num o.bid)
  | .ask => some (.num o.ask)
  | .change => some (.num o.change)
  | .percentChange => some (.num o.percentChange)
  | .volume => some (.num o.volume)
  | .openInterest => some (.num o.openInterest)
  | .impliedVolatility => some (.num o.impliedVolatility)
  | .predictedVolatility => o.predictedVolatility.map .num
  | .volatilityDifference => o.volatilityDifference.map .num
  | .delta => o.delta.map .num

/-- The JavaScript `<` on two defined key values (numeric, or lexicographic
for strings; distinct shapes never arise for one key). -/
def KeyVal.lt : KeyVal → KeyVal → Bool
  | .num a, .num b => decide (a < b)
  | .str a, .str b => decide (a < b)
  | _, _ => false

/-- Sort direction (`'asc' | 'desc'`). -/
inductive Direction where
  | asc
  | desc
deriving DecidableEq, Repr

/-- The comparator passed to `sortableOptions.sort` in `getSortedOptions`:
`0` when either value is `undefined`, otherwise `∓1` by `<` / `>` and the
direction. -/
def sortCompare (k : SortKey) (dir : Direction) (a b : OptionContract) : ℤ :=
  match keyVal k a, keyVal k b with
  | some av, some bv =>
    if av.lt bv then (match dir with | .asc => -1 | .desc => 1)
    else if bv.lt av then (match dir with | .asc => 1 | .desc => -1)
    else 0
  | _, _ => 0

/-- The "`a` need not come after `b`" relation induced by the comparator:
the merge switch of a comparison sort. -/
def sortLE (k : SortKey) (dir : Direction) (a b : OptionContract) : Bool :=
  decide (sortCompare k dir a b ≤ 0)

/-- `getSortedOptions`: copy the list and apply the engine sort
(`[...options].sort(comparator)`), modelled by the canonical stable
`List.mergeSort` with the comparator-induced merge switch; `null` sort
config returns the copy unchanged. -/
def getSortedOptions (options : List OptionContract)
    (sortConfig : Option (SortKey × Direction)) : List OptionContract :=
  match sortConfig with
  | none => options
  | some (k, dir) => options.mergeSort (sortLE k dir)

end Table

/-! ## The query engine of `src/frontend/nous-main/src/pages/Options.tsx` -/

/-- The side selector `OptionType` of `types/options.ts`. -/
inductive OptionType where
  | calls
  | puts
deriving DecidableEq, Repr

/-- The `Moneyness` selector of `types/options.ts`. -/
inductive Moneyness where
  | ITM
  | ATM
  | OTM
  | ALL
deriving DecidableEq, Repr

/-- The `OptionsFilters` record of `types/options.ts`; `null`-able fields are
`Option`s. -/
structure OptionsFilters where
  ticker : String
  optionType : OptionType
  expiryDate : Option String
  minStrike : Option ℚ
  maxStrike : Option ℚ
  moneyness : Moneyness
  minVolume : Option ℚ
  showRecommendationsOnly : Bool
deriving DecidableEq, Repr

/-- The side collection `optionChain[filters.optionType]`. -/
def OptionChain.side (c : OptionChain) : OptionType → List OptionContract
  | .calls => c.calls
  | .puts => c.puts

/-- `getFilteredOptions` of `Options.tsx`: the six successive narrowing
filters, in source order. The expiration guard `if (filters.expiryDate)` is
a truthiness test, so the empty string is also a no-op; the strike and
volume guards are strict `!== null` tests. The `ATM` branch's
`if (optionChain.strikeRange)` guard is always true (the field is not
optional) and is dropped. -/
def getFilteredOptions (optionChain : OptionChain) (filters : OptionsFilters) :
    List OptionContract :=
  let fo0 := optionChain.side filters.optionType
  let fo1 := match filters.expiryDate with
    | some d => if d = "" then fo0 else fo0.filter (fun o => decide (o.expiryDate = d))
    | none => fo0
  let fo2 := match filters.minStrike with
    | some m => fo1.filter (fun o => decide (o.strike ≥ m))
    | none => fo1
  let fo3 := match filters.maxStrike with
    | some m => fo2.filter (fun o => decide (o.strike ≤ m))
    | none => fo2
  let fo4 := match filters.moneyness with
    | .ALL => fo3
    | .ITM => fo3.filter (fun o => o.inTheMoney)
    | .OTM => fo3.filter (fun o => !o.inTheMoney)
    | .ATM =>
      let midPrice := (optionChain.strikeRange.min + optionChain.strikeRange.max) / 2
      let range := midPrice * 0.02
      fo3.filter (fun o => decide (o.strike ≥ midPrice - range ∧ o.strike ≤ midPrice + range))
  let fo5 := match filters.minVolume with
    | some m => fo4.filter (fun o => decide (o.volume ≥ m))
    | none => fo4
  if filters.showRecommendationsOnly then fo5.filter (fun o => o.isRecommended) else fo5

namespace Stats

/-! ## The aggregation of `OptionsStats.tsx` -/

/-- The `volumeByExpiry` computation of `OptionsStats.tsx`, over an explicit
side collection: one bucket per expiration date (in ladder order), holding
the `reduce`-sum of the volumes of the contracts with that expiry date.
The locale formatting of the bucket label is immaterial and the raw date
string is kept. -/
def volumeByExpiryFor (dates : List String) (options : List OptionContract) :
    List (String × ℚ) :=
  dates.map fun date =>
    (date, ((options.filter (fun o => decide (o.expiryDate = date))).map (·.volume)).sum)

/-- `volumeByExpiry` as in the source, where `currentOptionType` is fixed to
`"calls"`. -/
def volumeByExpiry (chain : OptionChain) : List (String × ℚ) :=
  volumeByExpiryFor chain.expirationDates chain.calls

end Stats

namespace FrontAPI

/-! ## The cached service of `src/frontend/nous-main/src/services/optionsAPI.ts` -/

/-- Left-pad a string with `'0'` to 5 characters
(`String(strike).padStart(5, '0')`). -/
def padStart5 (s : String) : String :=
  if s.length < 5 then String.mk (List.replicate (5 - s.length) '0') ++ s else s

/-- Per-contract environment of `processOptionsData`: one field per
`Math.random()` draw, plus `expVol` for the
`Math.exp(-0.01*distanceFromStrike - 0.03*daysToExpiry)` evaluation of the
volume formula. -/
structure FrontEnv where
  ivRand : ℚ
  changeRand : ℚ
  pctRand : ℚ
  thetaRand : ℚ
  recRand : ℚ
  confRand : ℚ
  expVol : ℚ
deriving DecidableEq, Repr

/-- One contract of `processOptionsData`'s `generateOptions` loop body.
`days` is the computed `daysToExpiry` and `expA` models
`Math.exp(-0.05 * daysToExpiry)`. -/
def frontContract (symbol expiry todayStr : String) (days : ℤ) (expA : ℚ)
    (strike : ℚ) (isCall : Bool) (fe : FrontEnv) : OptionContract :=
  let basePrice : ℚ := 150
  let inTheMoney : Bool := if isCall then decide (strike < basePrice) else decide (strike > basePrice)
  let distanceFromStrike : ℚ := |strike - basePrice|
  let lastPrice : ℚ :=
    if isCall then
      (if inTheMoney then (basePrice - strike) + 5 * expA else 5 * expA)
    else
      (if inTheMoney then (strike - basePrice) + 5 * expA else 5 * expA)
  let bid : ℚ := roundTo 2 (max 0 (lastPrice - 0.05))
  let ask : ℚ := roundTo 2 (bid + 0.10)
  let volume : ℚ := ((⌊(10000 : ℚ) * fe.expVol⌋ : ℤ) : ℚ)
  let openInterest : ℚ := ((⌊volume * 1.5⌋ : ℤ) : ℚ)
  let delta : ℚ :=
    if isCall then
      (if inTheMoney then 0.5 + 0.5 * (1 - distanceFromStrike / 50)
       else 0.5 - 0.5 * (distanceFromStrike / 50))
    else
      (if inTheMoney then -0.5 - 0.5 * (1 - distanceFromStrike / 50)
       else -0.5 + 0.5 * (distanceFromStrike / 50))
  let isRecommended : Bool := decide (fe.recRand < 0.1)
  { contractSymbol := symbol ++ (expiry.replace "-" "") ++
      (if isCall then "C" else "P") ++ padStart5 (toString strike)
    strike
    expiryDate := expiry
    lastPrice := roundTo 2 lastPrice
    bid
    ask
    change := roundTo 2 (fe.changeRand * 2 - 1)
    percentChange := roundTo 2 (fe.pctRand * 10 - 5)
    volume
    openInterest
    impliedVolatility := roundTo 2 (0.3 + 0.05 * fe.ivRand)
    inTheMoney
    lastTradeDate := todayStr
    isRecommended
    confidence := if isRecommended then some (roundTo 2 (0.7 + 0.3 * fe.confRand)) else none
    timeToExpiry := none
    riskFreeRate := none
    predictedVolatility := none
    volatilityDifference := none
    delta := some (roundTo 4 delta)
    gamma := some (roundTo 4 (0.04 - 0.03 * (min distanceFromStrike 25) / 25))
    theta := some (roundTo 4 (-0.03 - 0.02 * fe.thetaRand))
    vega := some (roundTo 4 (0.2 - 0.15 * distanceFromStrike / 25))
    rho := some (roundTo 4 ((if isCall then (0.05 : ℚ) else -0.05) * ((days : ℚ) / 365))) }

/-- Clock and randomness environment of `processOptionsData`: the formatted
current day, the four Friday expiration strings and per-expiry
`daysToExpiry` / discount factors the clock determines, and the per-side,
per-contract draw families. -/
structure FrontGen where
  todayStr : String
  fridays : List String
  days : ℕ → ℤ
  expA : ℕ → ℚ
  fenvCalls : ℕ → ℕ → FrontEnv
  fenvPuts : ℕ → ℕ → FrontEnv

/-- `processOptionsData`: the fixed strike grid `125, 130, …, 175` around the
mock base price 150, and one contract per (expiry, strike, side). -/
def processOptionsData (symbol : String) (now : ℕ) (g : FrontGen) : OptionChain :=
  let strikes : List ℚ := (List.range 11).map (fun i => 150 - 25 + (i : ℚ) * 5)
  let generateOptions := fun (isCall : Bool) (fenv : ℕ → ℕ → FrontEnv) =>
    g.fridays.enum.flatMap fun di =>
      strikes.enum.map fun si =>
        frontContract symbol di.2 g.todayStr (g.days di.1) (g.expA di.1) si.2 isCall (fenv di.1 si.1)
  { symbol := symbol
    calls := generateOptions true g.fenvCalls
    puts := generateOptions false g.fenvPuts
    expirationDates := g.fridays
    strikeRange := { min := (strikes.min?).getD 0, max := (strikes.max?).getD 0 }
    lastUpdate := now }

/-- `CACHE_EXPIRY = 5 * 60 * 1000` milliseconds. -/
def CACHE_EXPIRY : ℕ := 5 * 60 * 1000

/-- One entry of the module-level `cache` record. -/
structure CacheEntry where
  data : OptionChain
  timestamp : ℕ
deriving DecidableEq

/-- The module-level `cache` object, as a keyed store. -/
abbrev Cache := String → Option CacheEntry

/-- The empty cache (module load state). -/
def emptyCache : Cache := fun _ => none

/-- The cache key: `` `options_${symbol.toUpperCase()}` ``. -/
def cacheKey (symbol : String) : String := "options_" ++ symbol.toUpper

/-- The observable outcomes of the network step of the service
`fetchOptionsData`: the `fetch`/`json` step throws or `!response.ok`
(both reach the `catch`), the body carries `"Error Message"` (thrown, then
caught), the body carries `"Note"` (rate limit), or usable data. -/
inductive FetchOutcome where
  | transportError
  | providerError (msg : String)
  | rateLimitNote
  | ok
deriving DecidableEq, Repr

/-- The cache-miss tail of the service `fetchOptionsData`: all three failure
shapes return `null` and leave the cache unchanged; success processes the
data and stores it under `key` with the current timestamp. -/
def fetchFresh (cache : Cache) (key symbol : String) (now : ℕ)
    (oc : FetchOutcome) (g : FrontGen) : Option OptionChain × Cache :=
  match oc with
  | .transportError => (none, cache)
  | .providerError _ => (none, cache)
  | .rateLimitNote => (none, cache)
  | .ok =>
    let processedData := processOptionsData symbol now g
    (some processedData, fun k => if k = key then some ⟨processedData, now⟩ else cache k)

/-- `fetchOptionsData` of `services/optionsAPI.ts`: return the cached chain
when an entry for the normalized symbol is younger than `CACHE_EXPIRY`,
otherwise fetch. -/
def fetchOptionsData (cache : Cache) (symbol : String) (now : ℕ)
    (oc : FetchOutcome) (g : FrontGen) : Option OptionChain × Cache :=
  let key := cacheKey symbol
  match cache key with
  | some entry =>
    if now - entry.timestamp < CACHE_EXPIRY then (some entry.data, cache)
    else fetchFresh cache key symbol now oc g
  | none => fetchFresh cache key symbol now oc g

end FrontAPI

/-! ## Claims C5 and C8: the filter pipeline -/

/-- The conjunction of the six predicates of `getFilteredOptions`, in source
order, with an omitted optional field contributing `true`. -/
def passesFilters (optionChain : OptionChain) (filters : OptionsFilters)
    (o : OptionContract) : Bool :=
  (match filters.expiryDate with
   | some d => if d = "" then true else decide (o.expiryDate = d)
   | none => true) &&
  ((match filters.minStrike with
    | some m => decide (o.strike ≥ m)
    | none => true) &&
  ((match filters.maxStrike with
    | some m => decide (o.strike ≤ m)
    | none => true) &&
  ((match filters.moneyness with
    | .ALL => true
    | .ITM => o.inTheMoney
    | .OTM => !o.inTheMoney
    | .ATM =>
      let midPrice := (optionChain.strikeRange.min + optionChain.strikeRange.max) / 2
      let range := midPrice * 0.02
      decide (o.strike ≥ midPrice - range ∧ o.strike ≤ midPrice + range)) &&
  ((match filters.minVolume with
    | some m => decide (o.volume ≥ m)
    | none => true) &&
  (!filters.showRecommendationsOnly || o.isRecommended)))))

theorem filter_comp {α : Type} (p q : α → Bool) (l : List α) :
    (l.filter p).filter q = l.filter (fun a => p a && q a) := by
  induction l with
  | nil => rfl
  | cons a t ih => by_cases hp : p a <;> by_cases hq : q a <;>
      simp [List.filter_cons, hp, hq, ih]

set_option maxHeartbeats 1000000 in
theorem getFilteredOptions_eq_filter (chain : OptionChain) (filters : OptionsFilters) :
    getFilteredOptions chain filters =
      (chain.side filters.optionType).filter (fun o => passesFilters chain filters o) := by
  obtain ⟨tk, ot, ed, mns, mxs, mon, mv, rec⟩ := filters
  cases ed with
  | none =>
    cases mns <;> cases mxs <;> cases mon <;> cases mv <;> cases rec <;>
      (simp only [getFilteredOptions, filter_comp, passesFilters]
       simp [List.filter_true, Bool.and_assoc])
  | some d =>
    by_cases hd : d = "" <;>
      (cases mns <;> cases mxs <;> cases mon <;> cases mv <;> cases rec <;>
        (simp only [getFilteredOptions, filter_comp, passesFilters, hd, if_true, if_false]
         simp [hd, List.filter_true, Bool.and_assoc]))

/-- A minimal concrete contract used to instantiate theorems. -/
def plainContract (name : String) (strike : ℚ) : OptionContract :=
  { contractSymbol := name
    strike := strike
    expiryDate := "2026-01-16"
    lastPrice := 1
    bid := 1
    ask := 1
    change := 0
    percentChange := 0
    volume := 100
    openInterest := 100
    impliedVolatility := 30
    inTheMoney := false
    lastTradeDate := ""
    isRecommended := false
    confidence := none
    timeToExpiry := none
    riskFreeRate := none
    predictedVolatility := none
    volatilityDifference := none
    delta := none
    gamma := none
    theta := none
    vega := none
    rho := none }

/-- C5: for every chain, side and filter specification, `getFilteredOptions`
equals a single filter by the conjunction of the six predicates in source
order (so the predicates are conjunctive and omitted fields are no-ops),
the result is an ordered sublist of the side collection, its length is at
most the side's length, and the all-unset specification returns the side
collection unchanged. Purity (the chain is never mutated) is intrinsic:
`getFilteredOptions` is a function of its arguments. -/
theorem c5_filter_pipeline (chain : OptionChain) (filters : OptionsFilters) :
    getFilteredOptions chain filters =
      (chain.side filters.optionType).filter (fun o => passesFilters chain filters o) ∧
    (getFilteredOptions chain filters).Sublist (chain.side filters.optionType) ∧
    (getFilteredOptions chain filters).length ≤ (chain.side filters.optionType).length ∧
    (filters.expiryDate = none → filters.minStrike = none → filters.maxStrike = none →
      filters.moneyness = Moneyness.ALL → filters.minVolume = none →
      filters.showRecommendationsOnly = false →
      getFilteredOptions chain filters = chain.side filters.optionType) := by
  refine ⟨getFilteredOptions_eq_filter chain filters, ?_, ?_, ?_⟩
  · rw [getFilteredOptions_eq_filter]
    exact List.filter_sublist _
  · rw [getFilteredOptions_eq_filter]
    exact List.length_filter_le _ _
  · intro h1 h2 h3 h4 h5 h6
    rw [getFilteredOptions_eq_filter]
    simp [passesFilters, h1, h2, h3, h4, h5, h6]

/-- A two-contract chain for instantiating the filter theorems. -/
def c5Chain : OptionChain :=
  { symbol := "AAPL"
    calls := [plainContract "A" 150, plainContract "B" 190]
    puts := [plainContract "P" 150]
    expirationDates := ["2026-01-16"]
    strikeRange := { min := 100, max := 200 }
    lastUpdate := 0 }

/-- The all-unset filter specification. -/
def c5AllUnset : OptionsFilters :=
  { ticker := "AAPL"
    optionType := OptionType.calls
    expiryDate := none
    minStrike := none
    maxStrike := none
    moneyness := Moneyness.ALL
    minVolume := none
    showRecommendationsOnly := false }

theorem c5_filter_pipeline_witness :
    getFilteredOptions c5Chain c5AllUnset = c5Chain.side OptionType.calls ∧
    (getFilteredOptions c5Chain c5AllUnset).length ≤ (c5Chain.side OptionType.calls).length :=
  ⟨(c5_filter_pipeline c5Chain c5AllUnset).2.2.2 rfl rfl rfl rfl rfl rfl,
   (c5_filter_pipeline c5Chain c5AllUnset).2.1.length_le⟩

/-- C8: with the moneyness selector set to `ATM` (and the other optional
predicates unset), a contract passes `getFilteredOptions` exactly when its
strike lies within 2 percent of the midpoint of the chain's strike range —
the midpoint of the strike range, not a live reference price. -/
theorem c8_atm_midpoint (chain : OptionChain) (filters : OptionsFilters) (o : OptionContract)
    (hmon : filters.moneyness = Moneyness.ATM)
    (hed : filters.expiryDate = none) (hmin : filters.minStrike = none)
    (hmax : filters.maxStrike = none) (hmv : filters.minVolume = none)
    (hrec : filters.showRecommendationsOnly = false) :
    o ∈ getFilteredOptions chain filters ↔
      o ∈ chain.side filters.optionType ∧
      ((chain.strikeRange.min + chain.strikeRange.max) / 2) -
        ((chain.strikeRange.min + chain.strikeRange.max) / 2) * 0.02 ≤ o.strike ∧
      o.strike ≤ ((chain.strikeRange.min + chain.strikeRange.max) / 2) +
        ((chain.strikeRange.min + chain.strikeRange.max) / 2) * 0.02 := by
  rw [getFilteredOptions_eq_filter, List.mem_filter]
  simp [passesFilters, hmon, hed, hmin, hmax, hmv, hrec, ge_iff_le, and_assoc]

/-- The ATM-only filter specification. -/
def c8AtmOnly : OptionsFilters :=
  { ticker := "AAPL"
    optionType := OptionType.calls
    expiryDate := none
    minStrike := none
    maxStrike := none
    moneyness := Moneyness.ATM
    minVolume := none
    showRecommendationsOnly := false }

theorem c8_atm_midpoint_witness :
    plainContract "A" 150 ∈ getFilteredOptions c5Chain c8AtmOnly ∧
    plainContract "B" 190 ∉ getFilteredOptions c5Chain c8AtmOnly :=
  ⟨(c8_atm_midpoint c5Chain c8AtmOnly _ rfl rfl rfl rfl rfl rfl).mpr
      ⟨by simp [c5Chain, OptionChain.side, c8AtmOnly], by norm_num [c5Chain, plainContract],
        by norm_num [c5Chain, plainContract]⟩,
   fun h => by
    have h2 := (c8_atm_midpoint c5Chain c8AtmOnly _ rfl rfl rfl rfl rfl rfl).mp h
    norm_num [c5Chain, plainContract] at h2⟩

/-! ## Claim C9: aggregation conserves volume -/

theorem sum_filter_split (l : List OptionContract) (p : OptionContract → Bool) :
    ((l.filter p).map (·.volume)).sum + ((l.filter (fun o => !(p o))).map (·.volume)).sum
      = (l.map (·.volume)).sum := by
  induction l with
  | nil => simp
  | cons a t ih => by_cases hp : p a <;> simp [List.filter_cons, hp] <;> linarith [ih]

theorem volumeByExpiryFor_sum :
    ∀ (dates : List String) (options : List OptionContract),
      dates.Nodup → (∀ o ∈ options, o.expiryDate ∈ dates) →
      ((Stats.volumeByExpiryFor dates options).map (·.2)).sum
        = (options.map (·.volume)).sum := by
  intro dates
  induction dates with
  | nil =>
    intro options _ hall
    cases options with
    | nil => simp [Stats.volumeByExpiryFor]
    | cons o t => exact absurd (hall o (by simp)) (by simp)
  | cons d ds ih =>
    intro options hnd hall
    have hd_not : d ∉ ds := (List.nodup_cons.mp hnd).1
    have hnd' : ds.Nodup := (List.nodup_cons.mp hnd).2
    have step : Stats.volumeByExpiryFor ds options
        = Stats.volumeByExpiryFor ds (options.filter (fun o => !(decide (o.expiryDate = d)))) := by
      unfold Stats.volumeByExpiryFor
      apply List.map_congr_left
      intro date hdate
      have hdd : date ≠ d := fun h => hd_not (h ▸ hdate)
      rw [filter_comp]
      have heq : List.filter (fun a => !decide (a.expiryDate = d) && decide (a.expiryDate = date)) options
          = List.filter (fun o => decide (o.expiryDate = date)) options :=
        List.filter_congr (fun o _ => by
          by_cases ho : o.expiryDate = date
          · simp [ho, hdd]
          · simp [ho])
      rw [heq]
    have hall' : ∀ o ∈ options.filter (fun o => !(decide (o.expiryDate = d))),
        o.expiryDate ∈ ds := by
      intro o ho
      rcases List.mem_filter.mp ho with ⟨hmem, hne⟩
      have := hall o hmem
      simp at hne
      simpa [hne] using this
    have ihx := ih (options.filter (fun o => !(decide (o.expiryDate = d)))) hnd' hall'
    have split := sum_filter_split options (fun o => decide (o.expiryDate = d))
    simp only [Stats.volumeByExpiryFor, List.map_cons, List.sum_cons] at *
    rw [step]
    rw [ihx]
    linarith [split]

/-- C9: for every chain and queried side, if the expiration ladder has no
duplicate dates and every contract of the side expires on a ladder date,
then the per-expiration buckets of `volumeByExpiry` sum to the total volume
of the side. (`Stats.volumeByExpiry` itself queries the `calls` side; the
statement covers both sides through `Stats.volumeByExpiryFor`.) -/
theorem c9_volume_conservation (chain : OptionChain) (side : OptionType)
    (hnd : chain.expirationDates.Nodup)
    (hall : ∀ o ∈ chain.side side, o.expiryDate ∈ chain.expirationDates) :
    ((Stats.volumeByExpiryFor chain.expirationDates (chain.side side)).map (·.2)).sum
      = ((chain.side side).map (·.volume)).sum ∧
    Stats.volumeByExpiry chain = Stats.volumeByExpiryFor chain.expirationDates chain.calls :=
  ⟨volumeByExpiryFor_sum chain.expirationDates (chain.side side) hnd hall, rfl⟩

/-- A three-contract, two-expiry chain for the aggregation witness. -/
def c9Chain : OptionChain :=
  { symbol := "AAPL"
    calls := [{ plainContract "A1" 100 with expiryDate := "2026-01-16", volume := 5 },
              { plainContract "B1" 110 with expiryDate := "2026-01-23", volume := 7 },
              { plainContract "A2" 120 with expiryDate := "2026-01-16", volume := 11 }]
    puts := []
    expirationDates := ["2026-01-16", "2026-01-23"]
    strikeRange := { min := 100, max := 120 }
    lastUpdate := 0 }

theorem c9_volume_conservation_witness :
    ((Stats.volumeByExpiryFor c9Chain.expirationDates (c9Chain.side OptionType.calls)).map (·.2)).sum
      = ((c9Chain.side OptionType.calls).map (·.volume)).sum :=
  (c9_volume_conservation c9Chain OptionType.calls (by decide) (by decide)).1

/-! ## Claims C2 and C6: the two fetch entry points and the cache -/

/-- A concrete frontend clock/randomness environment. -/
def trivialFrontGen : FrontAPI.FrontGen :=
  { todayStr := ""
    fridays := []
    days := fun _ => 0
    expA := fun _ => 0
    fenvCalls := fun _ _ => ⟨0, 0, 0, 0, 0, 0, 0⟩
    fenvPuts := fun _ _ => ⟨0, 0, 0, 0, 0, 0, 0⟩ }

/-- A concrete per-expiration environment (valid). -/
def sampleDateEnv : MockGen.DateEnv :=
  { tte := 1/4, sqrtT := 1/2, interestFactor := 99/100, rfRand := 1/2 }

/-- A concrete per-contract environment (valid). -/
def sampleContractEnv : MockGen.ContractEnv :=
  { ivRand := 1/2, diffRand := 1/2, priceRand := 1/2, otmRand := 1/2, spreadRand := 1/2,
    changeRand := 1/2, volumeRand := 1/2, oiRand := 1/2, deltaRand := 1/2, recRand := 1/2,
    confRand := 1/2 }

/-- A concrete whole-chain environment (valid). -/
def sampleGenEnv : MockGen.GenEnv :=
  { now := 0
    dates := ["2026-01-16", "2026-01-23", "2026-01-30", "2026-02-06", "2026-02-13", "2026-02-20"]
    priceRand := 1/2
    denvCalls := fun _ => sampleDateEnv
    denvPuts := fun _ => sampleDateEnv
    cenvCalls := fun _ _ => sampleContractEnv
    cenvPuts := fun _ _ => sampleContractEnv }

/-- C2, counterexample to the claim as stated: in the frontend service
(`services/optionsAPI.ts`), a rate-limit signal on a cache miss yields `null`
— an absent chain — instead of a synthesized fallback. -/
theorem c2_counterexample :
    (FrontAPI.fetchOptionsData FrontAPI.emptyCache "AAPL" 0
      FrontAPI.FetchOutcome.rateLimitNote trivialFrontGen).1 = none := rfl

/-- C2, amended: the `part_000` entry point does fall back to synthesis on
every outcome (transport error, rate-limit note, missing or empty data, and
even the success path), so it always yields a chain for the requested
symbol; the frontend service entry point instead returns `null` (no chain)
on a transport error, a provider error, or a rate-limit signal when no fresh
cache entry exists. -/
theorem c2_fetch_fallback :
    (∀ (symbol : String) (oc : MockGen.AVOutcome) (g : MockGen.GenEnv),
       MockGen.fetchOptionsData symbol oc g = MockGen.generateMockOptionsData symbol g ∧
       (MockGen.fetchOptionsData symbol oc g).symbol = symbol) ∧
    (∀ (cache : FrontAPI.Cache) (sym : String) (now : ℕ) (g : FrontAPI.FrontGen),
       cache (FrontAPI.cacheKey sym) = none →
       (FrontAPI.fetchOptionsData cache sym now FrontAPI.FetchOutcome.rateLimitNote g).1 = none ∧
       (FrontAPI.fetchOptionsData cache sym now FrontAPI.FetchOutcome.transportError g).1 = none ∧
       ∀ msg, (FrontAPI.fetchOptionsData cache sym now
         (FrontAPI.FetchOutcome.providerError msg) g).1 = none) := by
  constructor
  · intro symbol oc g
    cases oc <;> exact ⟨rfl, rfl⟩
  · intro cache sym now g hmiss
    refine ⟨?_, ?_, fun msg => ?_⟩ <;>
      simp [FrontAPI.fetchOptionsData, hmiss, FrontAPI.fetchFresh]

theorem c2_fetch_fallback_witness :
    MockGen.fetchOptionsData "AAPL" MockGen.AVOutcome.fetchFailure sampleGenEnv
      = MockGen.generateMockOptionsData "AAPL" sampleGenEnv ∧
    (FrontAPI.fetchOptionsData FrontAPI.emptyCache "MSFT" 0
      FrontAPI.FetchOutcome.transportError trivialFrontGen).1 = none :=
  ⟨(c2_fetch_fallback.1 "AAPL" MockGen.AVOutcome.fetchFailure sampleGenEnv).1,
   (c2_fetch_fallback.2 FrontAPI.emptyCache "MSFT" 0 trivialFrontGen rfl).2.1⟩

/-- C6: starting from a cache with no entry for the symbol, a successful
request at `t0` yields the snapshot stamped `t0` and stores it under the
uppercased key; any request for any equal-up-to-case symbol at `t1` with
`t1 - t0 < CACHE_EXPIRY` returns that very snapshot (same generation
timestamp) and leaves the cache unchanged, whatever its own fetch outcome or
clock environment; a successful request at `t2` with
`t2 - t0 ≥ CACHE_EXPIRY` rebuilds and returns a snapshot stamped `t2 ≠ t0`. -/
theorem c6_cache_ttl (cache : FrontAPI.Cache) (sym sym2 : String) (t0 t1 t2 : ℕ)
    (oc1 : FrontAPI.FetchOutcome) (g g1 g2 : FrontAPI.FrontGen)
    (hmiss : cache (FrontAPI.cacheKey sym) = none)
    (hup : sym.toUpper = sym2.toUpper)
    (h01 : t1 - t0 < FrontAPI.CACHE_EXPIRY)
    (h02 : FrontAPI.CACHE_EXPIRY ≤ t2 - t0) :
    (FrontAPI.fetchOptionsData cache sym t0 FrontAPI.FetchOutcome.ok g).1
      = some (FrontAPI.processOptionsData sym t0 g) ∧
    (FrontAPI.processOptionsData sym t0 g).lastUpdate = t0 ∧
    (FrontAPI.fetchOptionsData ((FrontAPI.fetchOptionsData cache sym t0 FrontAPI.FetchOutcome.ok g).2)
        sym2 t1 oc1 g1).1 = some (FrontAPI.processOptionsData sym t0 g) ∧
    (FrontAPI.fetchOptionsData ((FrontAPI.fetchOptionsData cache sym t0 FrontAPI.FetchOutcome.ok g).2)
        sym2 t1 oc1 g1).2 = (FrontAPI.fetchOptionsData cache sym t0 FrontAPI.FetchOutcome.ok g).2 ∧
    (FrontAPI.fetchOptionsData ((FrontAPI.fetchOptionsData cache sym t0 FrontAPI.FetchOutcome.ok g).2)
        sym2 t2 FrontAPI.FetchOutcome.ok g2).1 = some (FrontAPI.processOptionsData sym2 t2 g2) ∧
    (FrontAPI.processOptionsData sym2 t2 g2).lastUpdate = t2 ∧
    (FrontAPI.processOptionsData sym2 t2 g2).lastUpdate
      ≠ (FrontAPI.processOptionsData sym t0 g).lastUpdate ∧
    FrontAPI.cacheKey sym = "options_" ++ sym.toUpper := by
  have key2 : FrontAPI.cacheKey sym2 = FrontAPI.cacheKey sym := by
    unfold FrontAPI.cacheKey
    rw [hup]
  have h1 : FrontAPI.fetchOptionsData cache sym t0 FrontAPI.FetchOutcome.ok g
      = (some (FrontAPI.processOptionsData sym t0 g),
         fun k => if k = FrontAPI.cacheKey sym
           then some ⟨FrontAPI.processOptionsData sym t0 g, t0⟩ else cache k) := by
    simp [FrontAPI.fetchOptionsData, hmiss, FrontAPI.fetchFresh]
  have hne : t2 ≠ t0 := by
    have : 0 < FrontAPI.CACHE_EXPIRY := by norm_num [FrontAPI.CACHE_EXPIRY]
    omega
  refine ⟨by rw [h1], rfl, ?_, ?_, ?_, rfl, by simpa [FrontAPI.processOptionsData] using hne, rfl⟩
  · rw [h1]
    simp [FrontAPI.fetchOptionsData, key2, h01]
  · rw [h1]
    simp [FrontAPI.fetchOptionsData, key2, h01]
  · rw [h1]
    simp [FrontAPI.fetchOptionsData, key2, Nat.not_lt.mpr h02, FrontAPI.fetchFresh]

theorem c6_cache_ttl_witness :
    (FrontAPI.fetchOptionsData
        ((FrontAPI.fetchOptionsData FrontAPI.emptyCache "AAPL" 0 FrontAPI.FetchOutcome.ok trivialFrontGen).2)
        "AAPL" 1000 FrontAPI.FetchOutcome.rateLimitNote trivialFrontGen).1
      = some (FrontAPI.processOptionsData "AAPL" 0 trivialFrontGen) ∧
    (FrontAPI.fetchOptionsData
        ((FrontAPI.fetchOptionsData FrontAPI.emptyCache "AAPL" 0 FrontAPI.FetchOutcome.ok trivialFrontGen).2)
        "AAPL" 300000 FrontAPI.FetchOutcome.ok trivialFrontGen).1
      = some (FrontAPI.processOptionsData "AAPL" 300000 trivialFrontGen) :=
  ⟨(c6_cache_ttl FrontAPI.emptyCache "AAPL" "AAPL" 0 1000 300000
      FrontAPI.FetchOutcome.rateLimitNote trivialFrontGen trivialFrontGen trivialFrontGen
      rfl rfl (by norm_num [FrontAPI.CACHE_EXPIRY]) (by norm_num [FrontAPI.CACHE_EXPIRY])).2.2.1,
   (c6_cache_ttl FrontAPI.emptyCache "AAPL" "AAPL" 0 1000 300000
      FrontAPI.FetchOutcome.rateLimitNote trivialFrontGen trivialFrontGen trivialFrontGen
      rfl rfl (by norm_num [FrontAPI.CACHE_EXPIRY]) (by norm_num [FrontAPI.CACHE_EXPIRY])).2.2.2.2.1⟩

/-! ## Claim C1: the valuation classifier -/

/-- Whether a justification line belongs to the volatility-analysis block. -/
def MockGen.Reason.isVol : MockGen.Reason → Bool
  | .undervalued _ => true
  | .modelPredictsHigher => true
  | .slightlyUndervalued _ => true
  | .overvalued _ => true
  | .marketPricesMore => true
  | .slightlyOvervalued _ => true
  | .highDelta _ => false
  | .goodLiquidity _ => false
  | .shortExpiry _ => false
  | .longerExpiry _ => false

theorem filter_isVol_reasons (o : OptionContract) :
    (MockGen.getRecommendationReasons o).filter MockGen.Reason.isVol
      = MockGen.volReasons o.volatilityDifference := by
  unfold MockGen.getRecommendationReasons
  rw [List.filter_append, List.filter_append, List.filter_append]
  have h1 : (MockGen.volReasons o.volatilityDifference).filter MockGen.Reason.isVol
      = MockGen.volReasons o.volatilityDifference := by
    unfold MockGen.volReasons
    cases o.volatilityDifference with
    | none => rfl
    | some d =>
      dsimp only
      split_ifs <;> simp [MockGen.Reason.isVol]
  have h2 : ((match o.delta with
      | some d => if d ≠ 0 ∧ |d| > 0.7 then [MockGen.Reason.highDelta (roundTo 4 d)] else []
      | none => ([] : List MockGen.Reason))).filter MockGen.Reason.isVol = [] := by
    cases o.delta with
    | none => rfl
    | some d =>
      dsimp only
      split_ifs <;> simp [MockGen.Reason.isVol]
  have h3 : ((if o.openInterest ≠ 0 ∧ o.openInterest > 1000
      then [MockGen.Reason.goodLiquidity o.openInterest]
      else ([] : List MockGen.Reason))).filter MockGen.Reason.isVol = [] := by
    split_ifs <;> simp [MockGen.Reason.isVol]
  have h4 : ((match o.timeToExpiry with
      | some t =>
        if t < 0.08 then [MockGen.Reason.shortExpiry (roundTo 1 (t * 365))]
        else if t > 0.25 then [MockGen.Reason.longerExpiry (roundTo 1 (t * 365))]
        else []
      | none => ([] : List MockGen.Reason))).filter MockGen.Reason.isVol = [] := by
    cases o.timeToExpiry with
    | none => rfl
    | some t =>
      dsimp only
      split_ifs <;> simp [MockGen.Reason.isVol]
  rw [h1, h2, h3, h4]
  simp

/-- C1, counterexample to the claim as stated: the claim puts the boundary
between the "undervalued" and the "slightly undervalued" justification bands
at +2, but the code (`getRecommendationReasons`) puts it at +3: a difference
of 2.5 (which is > 2, hence in the claim's non-slight band) produces the
same "slightly undervalued" sentence as 1.0 (which is in (0, 2]). -/
theorem c1_counterexample :
    MockGen.volReasons (some (5/2)) = [MockGen.Reason.slightlyUndervalued (5/2)] ∧
    MockGen.volReasons (some 1) = [MockGen.Reason.slightlyUndervalued 1] ∧
    (5/2 : ℚ) > 2 ∧ (0 : ℚ) < 1 ∧ (1 : ℚ) ≤ 2 := by
  refine ⟨?_, ?_, by norm_num, by norm_num, by norm_num⟩ <;>
    norm_num [MockGen.volReasons, roundTo, round_eq]

/-- C1, amended: the Buy/Avoid signal of `getRecommendationBadge` is exactly
`diff > 2` / `diff < -2` (no signal on `[-2, 2]` or `undefined`), its
justification references the magnitude; the volatility-analysis block of
`getRecommendationReasons` is a function of the volatility difference alone,
with four distinct justification bands whose boundaries are at ±3 (not ±2):
`> 3`, `(0, 3]`, `[-3, 0)`, `< -3`, and a difference of 0 produces no
volatility line. The claim's examples hold: +3.4 is in the "Undervalued"
band (referencing 3.400), +1.0 in the "slightly undervalued" band, and 0
yields no signal. -/
theorem c1_classifier (o : OptionContract) :
    (o.volatilityDifference = none → Table.getRecommendationBadge o = none) ∧
    (∀ d : ℚ, o.volatilityDifference = some d →
      ((2 < d → Table.getRecommendationBadge o = some (Table.BadgeKind.buy, roundTo 3 |d|)) ∧
       (d < -2 → Table.getRecommendationBadge o = some (Table.BadgeKind.avoid, roundTo 3 |d|)) ∧
       (-2 ≤ d → d ≤ 2 → Table.getRecommendationBadge o = none))) ∧
    ((MockGen.getRecommendationReasons o).filter MockGen.Reason.isVol
       = MockGen.volReasons o.volatilityDifference) ∧
    (∀ o2 : OptionContract, o2.volatilityDifference = o.volatilityDifference →
      (MockGen.getRecommendationReasons o2).filter MockGen.Reason.isVol
        = (MockGen.getRecommendationReasons o).filter MockGen.Reason.isVol) ∧
    (∀ d : ℚ,
      (3 < d → MockGen.volReasons (some d)
         = [MockGen.Reason.undervalued (roundTo 3 |d|), MockGen.Reason.modelPredictsHigher]) ∧
      (0 < d → d ≤ 3 → MockGen.volReasons (some d)
         = [MockGen.Reason.slightlyUndervalued (roundTo 3 d)]) ∧
      (d < -3 → MockGen.volReasons (some d)
         = [MockGen.Reason.overvalued (roundTo 3 |d|), MockGen.Reason.marketPricesMore]) ∧
      (-3 ≤ d → d < 0 → MockGen.volReasons (some d)
         = [MockGen.Reason.slightlyOvervalued (roundTo 3 |d|)]) ∧
      (d = 0 → MockGen.volReasons (some d) = [])) := by
  refine ⟨?_, ?_, filter_isVol_reasons o, ?_, ?_⟩
  · intro h
    unfold Table.getRecommendationBadge
    rw [h]
  · intro d hd
    unfold Table.getRecommendationBadge
    rw [hd]
    dsimp only
    refine ⟨fun h => ?_, fun h => ?_, fun h1 h2 => ?_⟩ <;> split_ifs <;>
      first | rfl | linarith
  · intro o2 h
    rw [filter_isVol_reasons, filter_isVol_reasons, h]
  · intro d
    unfold MockGen.volReasons
    dsimp only
    refine ⟨fun h => ?_, fun h1 h2 => ?_, fun h => ?_, fun h1 h2 => ?_, fun h => ?_⟩ <;>
      split_ifs <;> first | rfl | linarith

theorem c1_classifier_witness :
    Table.getRecommendationBadge { plainContract "X" 100 with volatilityDifference := some (17/5) }
      = some (Table.BadgeKind.buy, roundTo 3 |(17/5 : ℚ)|) ∧
    MockGen.volReasons (some (17/5))
      = [MockGen.Reason.undervalued (roundTo 3 |(17/5 : ℚ)|), MockGen.Reason.modelPredictsHigher] ∧
    MockGen.volReasons (some 1) = [MockGen.Reason.slightlyUndervalued (roundTo 3 1)] ∧
    Table.getRecommendationBadge { plainContract "X" 100 with volatilityDifference := some 0 } = none ∧
    roundTo 3 |(17/5 : ℚ)| = 17/5 :=
  ⟨((c1_classifier _).2.1 (17/5) rfl).1 (by norm_num),
   ((c1_classifier (plainContract "X" 100)).2.2.2.2 (17/5)).1 (by norm_num),
   (((c1_classifier (plainContract "X" 100)).2.2.2.2 1).2.1 (by norm_num) (by norm_num)),
   (((c1_classifier _).2.1 0 rfl).2.2 (by norm_num) (by norm_num)),
   by
    have h : |(17/5 : ℚ)| = 17/5 := by norm_num
    rw [roundTo, h]
    norm_num [round_eq]⟩

/-! ## Claim C10: the recommendation flag is independent of the volatility difference -/

/-- Per-contract environment whose volatility-difference draw selects the
value `2.553` (index 17) and whose recommendation draw is `1/2` (below the
`> 0.8` threshold, so not recommended). -/
def c10ContractEnv : MockGen.ContractEnv :=
  { sampleContractEnv with diffRand := 17/24 }

/-- A synthesized call whose volatility difference classifies as Buy but
whose recommendation flag is false. -/
def c10Contract : OptionContract :=
  MockGen.mkContract "AAPL" "2026-01-16" 0 150 (175.23) Side.call sampleDateEnv c10ContractEnv

/-- A one-contract chain holding `c10Contract`. -/
def c10Chain : OptionChain :=
  { symbol := "AAPL"
    calls := [c10Contract]
    puts := []
    expirationDates := ["2026-01-16"]
    strikeRange := { min := 150, max := 150 }
    lastUpdate := 0 }

/-- The recommended-only filter specification. -/
def c10Filters : OptionsFilters :=
  { ticker := "AAPL"
    optionType := OptionType.calls
    expiryDate := none
    minStrike := none
    maxStrike := none
    moneyness := Moneyness.ALL
    minVolume := none
    showRecommendationsOnly := true }

/-- C10: with the random draws explicit, the `isRecommended` flag of a
synthesized contract is exactly its own Bernoulli draw (`> 0.8`, probability
0.2, in `part_000`; `< 0.1`, probability 0.1, in the frontend service), so
changing only the volatility-difference draw never changes it; concretely,
`c10Contract` has volatility difference 2.553 (> 2, a "Buy" badge) yet
`isRecommended = false`, and the recommended-only filter drops it. -/
theorem c10_recommendation_independent :
    (∀ (symbol expiry : String) (di : ℕ) (strike price : ℚ) (side : Side)
       (de : MockGen.DateEnv) (ce : MockGen.ContractEnv) (x : ℚ),
       (MockGen.mkContract symbol expiry di strike price side de
          { ce with diffRand := x }).isRecommended
         = (MockGen.mkContract symbol expiry di strike price side de ce).isRecommended) ∧
    (∀ (symbol expiry : String) (di : ℕ) (strike price : ℚ) (side : Side)
       (de : MockGen.DateEnv) (ce : MockGen.ContractEnv),
       (MockGen.mkContract symbol expiry di strike price side de ce).isRecommended
         = decide (ce.recRand > 0.8)) ∧
    (∀ (symbol expiry todayStr : String) (days : ℤ) (expA strike : ℚ) (isCall : Bool)
       (fe : FrontAPI.FrontEnv),
       (FrontAPI.frontContract symbol expiry todayStr days expA strike isCall fe).isRecommended
         = decide (fe.recRand < 0.1)) ∧
    c10Contract.volatilityDifference = some (2553/1000) ∧
    (Table.getRecommendationBadge c10Contract).map Prod.fst = some Table.BadgeKind.buy ∧
    c10Contract.isRecommended = false ∧
    getFilteredOptions c10Chain c10Filters = [] := by
  have hidx : (⌊c10ContractEnv.diffRand * 24⌋).toNat = 17 := by
    have h17 : ⌊c10ContractEnv.diffRand * 24⌋ = 17 := by
      norm_num [c10ContractEnv, sampleContractEnv]
    rw [h17]
    rfl
  have hvd : c10Contract.volatilityDifference = some (2553/1000) := by
    simp only [c10Contract, MockGen.mkContract, hidx]
    norm_num [MockGen.volatilityDifferenceValues]
  have hrec : c10Contract.isRecommended = false := by
    simp only [c10Contract, MockGen.mkContract]
    norm_num [c10ContractEnv, sampleContractEnv]
  refine ⟨fun _ _ _ _ _ _ _ _ _ => rfl, fun _ _ _ _ _ _ _ _ => rfl,
    fun _ _ _ _ _ _ _ _ => rfl, hvd, ?_, hrec, ?_⟩
  · unfold Table.getRecommendationBadge
    rw [hvd]
    norm_num
  · simp [getFilteredOptions, c10Filters, c10Chain, OptionChain.side, hrec]

/-! ## Claim C3: Greek-letter invariants of the synthesizer -/

theorem roundTo_bounds {n : ℕ} {lo hi x : ℚ} (hl : roundTo n lo = lo) (hh : roundTo n hi = hi)
    (h1 : lo ≤ x) (h2 : x ≤ hi) : lo ≤ roundTo n x ∧ roundTo n x ≤ hi :=
  ⟨hl ▸ roundTo_mono n h1, hh ▸ roundTo_mono n h2⟩

theorem vol_lower (di : ℕ) (m ivr : ℚ) (hm : 0 ≤ m) (h1 : 0 ≤ ivr) (h2 : ivr < 1) :
    1/5 ≤ roundTo 4 ((0.25 + (di : ℚ) * 0.03 + m * 0.2) * (1 + (ivr * 0.4 - 0.2))) := by
  have hdi : (0 : ℚ) ≤ (di : ℚ) := Nat.cast_nonneg di
  have hb : (1 : ℚ)/5 ≤ (0.25 + (di : ℚ) * 0.03 + m * 0.2) * (1 + (ivr * 0.4 - 0.2)) := by
    nlinarith
  have hfix : roundTo 4 (1/5) = 1/5 := by norm_num [roundTo, round_eq]
  exact hfix ▸ roundTo_mono 4 hb

/-- C3, counterexample to the claim as stated, at explicit reachable inputs
(all draws `1/2` except where noted, `tte = 0.25`, `sqrt(tte) = 0.5`):
the in-the-money put at spot 150 / strike 300 gets delta `-0.01` — outside
the claimed mirrored in-the-money sub-range `(-0.99, -0.5)` (the source
attaches the deep sub-range to `spot > strike`, which for a put is
out-of-the-money) — and gamma `-0.0003 < 0`, violating "gamma ≥ 0"; and the
in-the-money call at spot 150 / strike 149.99 with noise draw 0 gets delta
exactly `0.5`, violating the claimed open interval `(0.5, 0.99)`. -/
theorem c3_counterexample :
    (MockGen.mkContract "AAPL" "2026-01-16" 0 300 150 Side.put sampleDateEnv
        sampleContractEnv).inTheMoney = true ∧
    (MockGen.mkContract "AAPL" "2026-01-16" 0 300 150 Side.put sampleDateEnv
        sampleContractEnv).delta = some (-0.01) ∧
    (MockGen.mkContract "AAPL" "2026-01-16" 0 300 150 Side.put sampleDateEnv
        sampleContractEnv).gamma = some (-0.0003) ∧
    ((-0.01 : ℚ) > -(1/2) ∧ (-0.0003 : ℚ) < 0) ∧
    (MockGen.mkContract "AAPL" "2026-01-16" 0 149.99 150 Side.call sampleDateEnv
        { sampleContractEnv with deltaRand := 0 }).inTheMoney = true ∧
    (MockGen.mkContract "AAPL" "2026-01-16" 0 149.99 150 Side.call sampleDateEnv
        { sampleContractEnv with deltaRand := 0 }).delta = some (0.5) := by
  have habs3 : |1 - (300 : ℚ)/150| = 1 := by
    rw [show (1 : ℚ) - 300/150 = -1 by norm_num, abs_neg, abs_one]
  have hvolP : roundTo 4 ((0.25 + ((0 : ℕ) : ℚ) * 0.03 + |1 - (300 : ℚ)/150| * 0.2) *
      (1 + ((1 : ℚ)/2 * 0.4 - 0.2))) = 0.45 := by
    rw [habs3]
    norm_num [roundTo, round_eq]
  have hcdP : MockGen.calculateRealisticDelta 150 300 Side.put (1/4) 0.45 (1/2) (1/2)
      = -0.01 := by
    simp only [MockGen.calculateRealisticDelta]
    rw [if_neg (by norm_num : ¬(150 : ℚ) > 300)]
    norm_num [min_def, max_def]
  have habsC : |1 - (149.99 : ℚ)/150| = 1/15000 := by
    rw [show (1 : ℚ) - 149.99/150 = 1/15000 by norm_num, abs_of_nonneg (by norm_num)]
  have hvolC : roundTo 4 ((0.25 + ((0 : ℕ) : ℚ) * 0.03 + |1 - (149.99 : ℚ)/150| * 0.2) *
      (1 + ((1 : ℚ)/2 * 0.4 - 0.2))) = 0.25 := by
    rw [habsC]
    norm_num [roundTo, round_eq]
  have hcdC : MockGen.calculateRealisticDelta 150 149.99 Side.call (1/4) 0.25 (1/2) 0
      = 0.5 := by
    simp only [MockGen.calculateRealisticDelta]
    rw [if_pos (by norm_num : (150 : ℚ) > 149.99)]
    norm_num [min_def, max_def]
  refine ⟨?_, ?_, ?_, ⟨by norm_num, by norm_num⟩, ?_, ?_⟩
  · simp only [MockGen.mkContract]
    rw [decide_eq_true_eq]
    norm_num
  · simp only [MockGen.mkContract, sampleDateEnv, sampleContractEnv]
    rw [hvolP, hcdP]
    norm_num [roundTo, round_eq]
  · simp only [MockGen.mkContract, sampleDateEnv, sampleContractEnv]
    rw [hvolP, hcdP]
    rw [show roundTo 4 (-0.01 : ℚ) = -0.01 by norm_num [roundTo, round_eq]]
    norm_num [roundTo, round_eq]
  · simp only [MockGen.mkContract]
    rw [decide_eq_true_eq]
    norm_num
  · simp only [MockGen.mkContract, sampleDateEnv, sampleContractEnv]
    rw [hvolC, hcdC]
    norm_num [roundTo, round_eq]

theorem calcDelta_call_bounds (spot strike tte vol sqrtT dr : ℚ) :
    (spot > strike →
      1/2 ≤ MockGen.calculateRealisticDelta spot strike Side.call tte vol sqrtT dr ∧
      MockGen.calculateRealisticDelta spot strike Side.call tte vol sqrtT dr ≤ 0.99) ∧
    (¬spot > strike →
      0.01 ≤ MockGen.calculateRealisticDelta spot strike Side.call tte vol sqrtT dr ∧
      MockGen.calculateRealisticDelta spot strike Side.call tte vol sqrtT dr ≤ 1/2) := by
  unfold MockGen.calculateRealisticDelta
  dsimp only
  constructor
  · intro h
    rw [if_pos h]
    exact ⟨le_min (by norm_num) ((by norm_num : (1:ℚ)/2 ≤ 0.5).trans (le_max_left _ _)),
      min_le_left _ _⟩
  · intro h
    rw [if_neg h]
    exact ⟨le_min (by norm_num) ((le_refl _).trans (le_max_left _ _)),
      (min_le_left _ _).trans (by norm_num)⟩

theorem calcDelta_put_bounds (spot strike tte vol sqrtT dr : ℚ) :
    (spot > strike →
      -0.99 ≤ MockGen.calculateRealisticDelta spot strike Side.put tte vol sqrtT dr ∧
      MockGen.calculateRealisticDelta spot strike Side.put tte vol sqrtT dr ≤ -(1/2)) ∧
    (¬spot > strike →
      -(1/2) ≤ MockGen.calculateRealisticDelta spot strike Side.put tte vol sqrtT dr ∧
      MockGen.calculateRealisticDelta spot strike Side.put tte vol sqrtT dr ≤ -0.01) := by
  unfold MockGen.calculateRealisticDelta
  dsimp only
  constructor
  · intro h
    rw [if_pos h]
    exact ⟨le_max_left _ _,
      max_le (by norm_num) ((min_le_left _ _).trans (by norm_num))⟩
  · intro h
    rw [if_neg h]
    exact ⟨(by norm_num : -(1/2 : ℚ) ≤ -0.5).trans (le_max_left _ _),
      max_le (by norm_num) (min_le_left _ _)⟩

/-- C3, amended: every call delta lies in `(0, 1)` — clamped to the closed
band `[0.5, 0.99]` when `spot > strike` (the in-the-money side for a call)
and to `[0.01, 0.5]` otherwise — and every put delta lies in `(-1, 0)`,
clamped to `[-0.99, -0.5]` when `spot > strike` (which for a put is the
OUT-of-the-money side: the source mirrors the branch structure, not the
moneyness, so the deep band sits on out-of-the-money puts) and to
`[-0.5, -0.01]` otherwise; vega is always `≥ 0`; gamma is `≥ 0` for calls
but `≤ 0` for puts, because the call formula `δ(1-δ)` is reused with the
negative put delta. -/
theorem c3_greeks (symbol expiry : String) (di : ℕ) (strike price : ℚ) (side : Side)
    (de : MockGen.DateEnv) (ce : MockGen.ContractEnv)
    (hde : de.Valid) (hce : ce.Valid) (hp : 0 < price) :
    (side = Side.call →
      ∃ d, (MockGen.mkContract symbol expiry di strike price side de ce).delta = some d ∧
        0 < d ∧ d < 1 ∧
        (price > strike → 1/2 ≤ d ∧ d ≤ 0.99) ∧
        (¬price > strike → 0.01 ≤ d ∧ d ≤ 1/2)) ∧
    (side = Side.put →
      ∃ d, (MockGen.mkContract symbol expiry di strike price side de ce).delta = some d ∧
        -1 < d ∧ d < 0 ∧
        (price > strike → -0.99 ≤ d ∧ d ≤ -(1/2)) ∧
        (¬price > strike → -(1/2) ≤ d ∧ d ≤ -0.01)) ∧
    (∃ v, (MockGen.mkContract symbol expiry di strike price side de ce).vega = some v ∧
      0 ≤ v) ∧
    (side = Side.call →
      ∃ gm, (MockGen.mkContract symbol expiry di strike price side de ce).gamma = some gm ∧
        0 ≤ gm) ∧
    (side = Side.put →
      ∃ gm, (MockGen.mkContract symbol expiry di strike price side de ce).gamma = some gm ∧
        gm ≤ 0) ∧
    ((MockGen.mkContract symbol expiry di strike price side de ce).inTheMoney = true ↔
      (match side with
       | Side.call => price > strike
       | Side.put => price < strike)) := by
  obtain ⟨hrf, hsq, hif0, hif1⟩ := hde
  obtain ⟨hiv, hdi, hprr, hot, hsp, hch, hvo, hoi, hdr, hre, hco⟩ := hce
  have hV : 1/5 ≤ roundTo 4 ((0.25 + (di : ℚ) * 0.03 + |1 - strike/price| * 0.2) *
      (1 + (ce.ivRand * 0.4 - 0.2))) :=
    vol_lower di _ ce.ivRand (abs_nonneg _) hiv.1 hiv.2
  have hVpos : 0 < roundTo 4 ((0.25 + (di : ℚ) * 0.03 + |1 - strike/price| * 0.2) *
      (1 + (ce.ivRand * 0.4 - 0.2))) := lt_of_lt_of_le (by norm_num) hV
  have hden : 0 < price * roundTo 4 ((0.25 + (di : ℚ) * 0.03 + |1 - strike/price| * 0.2) *
      (1 + (ce.ivRand * 0.4 - 0.2))) * de.sqrtT := by positivity
  have hfix_half : roundTo 4 (1/2 : ℚ) = 1/2 := by norm_num [roundTo, round_eq]
  have hfix_99 : roundTo 4 (0.99 : ℚ) = 0.99 := by norm_num [roundTo, round_eq]
  have hfix_01 : roundTo 4 (0.01 : ℚ) = 0.01 := by norm_num [roundTo, round_eq]
  have hfix_nhalf : roundTo 4 (-(1/2) : ℚ) = -(1/2) := by norm_num [roundTo, round_eq]
  have hfix_n99 : roundTo 4 (-0.99 : ℚ) = -0.99 := by norm_num [roundTo, round_eq]
  have hfix_n01 : roundTo 4 (-0.01 : ℚ) = -0.01 := by norm_num [roundTo, round_eq]
  cases side with
  | call =>
    have hbounds := calcDelta_call_bounds price strike de.tte
      (roundTo 4 ((0.25 + (di : ℚ) * 0.03 + |1 - strike/price| * 0.2) *
        (1 + (ce.ivRand * 0.4 - 0.2)))) de.sqrtT ce.deltaRand
    have hd99 : 0.01 ≤ roundTo 4 (MockGen.calculateRealisticDelta price strike Side.call de.tte
        (roundTo 4 ((0.25 + (di : ℚ) * 0.03 + |1 - strike/price| * 0.2) *
          (1 + (ce.ivRand * 0.4 - 0.2)))) de.sqrtT ce.deltaRand) ∧
        roundTo 4 (MockGen.calculateRealisticDelta price strike Side.call de.tte
        (roundTo 4 ((0.25 + (di : ℚ) * 0.03 + |1 - strike/price| * 0.2) *
          (1 + (ce.ivRand * 0.4 - 0.2)))) de.sqrtT ce.deltaRand) ≤ 0.99 := by
      by_cases h : price > strike
      · obtain ⟨h1, h2⟩ := hbounds.1 h
        exact ⟨roundTo_bounds hfix_01 hfix_99 (le_trans (by norm_num) h1) h2 |>.1,
          (roundTo_bounds hfix_01 hfix_99 (le_trans (by norm_num) h1) h2).2⟩
      · obtain ⟨h1, h2⟩ := hbounds.2 h
        exact ⟨(roundTo_bounds hfix_01 hfix_99 h1 (le_trans h2 (by norm_num))).1,
          (roundTo_bounds hfix_01 hfix_99 h1 (le_trans h2 (by norm_num))).2⟩
    refine ⟨fun _ => ⟨_, rfl, ?_, ?_, ?_, ?_⟩, fun h => Side.noConfusion h,
      ⟨_, rfl, roundTo_nonneg 4 (by positivity)⟩, fun _ => ⟨_, rfl, ?_⟩,
      fun h => Side.noConfusion h, by simp [MockGen.mkContract]⟩
    · exact lt_of_lt_of_le (by norm_num) hd99.1
    · exact lt_of_le_of_lt hd99.2 (by norm_num)
    · intro h
      obtain ⟨h1, h2⟩ := hbounds.1 h
      exact roundTo_bounds hfix_half hfix_99 h1 h2
    · intro h
      obtain ⟨h1, h2⟩ := hbounds.2 h
      exact roundTo_bounds hfix_01 hfix_half h1 h2
    · refine roundTo_nonneg 4 (div_nonneg (mul_nonneg ?_ ?_) (le_of_lt hden))
      · exact le_trans (by norm_num) hd99.1
      · have := hd99.2
        norm_num at this ⊢
        linarith
  | put =>
    have hbounds := calcDelta_put_bounds price strike de.tte
      (roundTo 4 ((0.25 + (di : ℚ) * 0.03 + |1 - strike/price| * 0.2) *
        (1 + (ce.ivRand * 0.4 - 0.2)))) de.sqrtT ce.deltaRand
    have hd99 : -0.99 ≤ roundTo 4 (MockGen.calculateRealisticDelta price strike Side.put de.tte
        (roundTo 4 ((0.25 + (di : ℚ) * 0.03 + |1 - strike/price| * 0.2) *
          (1 + (ce.ivRand * 0.4 - 0.2)))) de.sqrtT ce.deltaRand) ∧
        roundTo 4 (MockGen.calculateRealisticDelta price strike Side.put de.tte
        (roundTo 4 ((0.25 + (di : ℚ) * 0.03 + |1 - strike/price| * 0.2) *
          (1 + (ce.ivRand * 0.4 - 0.2)))) de.sqrtT ce.deltaRand) ≤ -0.01 := by
      by_cases h : price > strike
      · obtain ⟨h1, h2⟩ := hbounds.1 h
        exact roundTo_bounds hfix_n99 hfix_n01 h1 (le_trans h2 (by norm_num))
      · obtain ⟨h1, h2⟩ := hbounds.2 h
        exact roundTo_bounds hfix_n99 hfix_n01 (le_trans (by norm_num) h1) h2
    refine ⟨fun h => Side.noConfusion h, fun _ => ⟨_, rfl, ?_, ?_, ?_, ?_⟩,
      ⟨_, rfl, roundTo_nonneg 4 (by positivity)⟩, fun h => Side.noConfusion h,
      fun _ => ⟨_, rfl, ?_⟩, by simp [MockGen.mkContract]⟩
    · exact lt_of_lt_of_le (by norm_num) hd99.1
    · exact lt_of_le_of_lt hd99.2 (by norm_num)
    · intro h
      obtain ⟨h1, h2⟩ := hbounds.1 h
      exact roundTo_bounds hfix_n99 hfix_nhalf h1 h2
    · intro h
      obtain ⟨h1, h2⟩ := hbounds.2 h
      exact roundTo_bounds hfix_nhalf hfix_n01 h1 h2
    · refine roundTo_nonpos 4 (div_nonpos_of_nonpos_of_nonneg (mul_nonpos_of_nonpos_of_nonneg ?_ ?_) (le_of_lt hden))
      · have := hd99.2
        norm_num at this ⊢
        linarith
      · have := hd99.1
        norm_num at this ⊢
        linarith

theorem c3_greeks_witness :
    (∃ d, (MockGen.mkContract "AAPL" "2026-01-16" 0 149.99 150 Side.call sampleDateEnv
        sampleContractEnv).delta = some d ∧ 0 < d ∧ d < 1 ∧
        ((150 : ℚ) > 149.99 → 1/2 ≤ d ∧ d ≤ 0.99) ∧
        (¬(150 : ℚ) > 149.99 → 0.01 ≤ d ∧ d ≤ 1/2)) ∧
    (∃ v, (MockGen.mkContract "AAPL" "2026-01-16" 0 149.99 150 Side.call sampleDateEnv
        sampleContractEnv).vega = some v ∧ 0 ≤ v) :=
  ⟨(c3_greeks "AAPL" "2026-01-16" 0 149.99 150 Side.call sampleDateEnv sampleContractEnv
      (by norm_num [MockGen.DateEnv.Valid, MockGen.unitRand, sampleDateEnv])
      (by norm_num [MockGen.ContractEnv.Valid, MockGen.unitRand, sampleContractEnv])
      (by norm_num)).1 rfl,
   (c3_greeks "AAPL" "2026-01-16" 0 149.99 150 Side.call sampleDateEnv sampleContractEnv
      (by norm_num [MockGen.DateEnv.Valid, MockGen.unitRand, sampleDateEnv])
      (by norm_num [MockGen.ContractEnv.Valid, MockGen.unitRand, sampleContractEnv])
      (by norm_num)).2.2.1⟩

/-! ## Claim C4: price and quantity bounds of generated chains -/

/-- A rational with at most two decimal places. -/
def TwoDec (q : ℚ) : Prop := ∃ z : ℤ, q = (z : ℚ) / 100

theorem TwoDec.roundTo_eq {q : ℚ} (h : TwoDec q) : roundTo 2 q = q := by
  obtain ⟨z, rfl⟩ := h
  have h2 := roundTo_intCast_div 2 z
  norm_num at h2 ⊢
  exact h2

theorem TwoDec.add {a b : ℚ} (ha : TwoDec a) (hb : TwoDec b) : TwoDec (a + b) := by
  obtain ⟨x, rfl⟩ := ha
  obtain ⟨y, rfl⟩ := hb
  exact ⟨x + y, by push_cast; ring⟩

theorem TwoDec.natMul (k : ℕ) {a : ℚ} (ha : TwoDec a) : TwoDec ((k : ℚ) * a) := by
  obtain ⟨x, rfl⟩ := ha
  exact ⟨k * x, by push_cast; ring⟩

theorem twoDec_roundTo (q : ℚ) : TwoDec (roundTo 2 q) :=
  ⟨round (q * (10 : ℚ) ^ 2), by unfold roundTo; norm_num⟩

theorem twoDec_max {a b : ℚ} (ha : TwoDec a) (hb : TwoDec b) : TwoDec (max a b) := by
  rcases max_cases a b with ⟨h, -⟩ | ⟨h, -⟩ <;> rw [h] <;> assumption

theorem twoDec_one : TwoDec 1 := ⟨100, by norm_num⟩

theorem twoDec_getStrikeIncrement (p : ℚ) : TwoDec (MockGen.getStrikeIncrement p) := by
  unfold MockGen.getStrikeIncrement
  split_ifs
  · exact ⟨50, by norm_num⟩
  · exact ⟨100, by norm_num⟩
  · exact ⟨250, by norm_num⟩
  · exact ⟨500, by norm_num⟩
  · exact ⟨1000, by norm_num⟩
  · exact ⟨2500, by norm_num⟩

theorem mem_strikesFor {x minS maxS step : ℚ} (hmin : TwoDec minS) (hstep : TwoDec step)
    (hx : x ∈ MockGen.strikesFor minS maxS step) : minS ≤ x ∧ x ≤ maxS := by
  unfold MockGen.strikesFor at hx
  split_ifs at hx with hcond
  · obtain ⟨hstep_pos, hle⟩ := hcond
    rw [List.mem_map] at hx
    obtain ⟨k, hk, hkx⟩ := hx
    rw [List.mem_range] at hk
    subst hkx
    have h2 : TwoDec (minS + (k : ℚ) * step) := hmin.add (hstep.natMul k)
    rw [h2.roundTo_eq]
    have hk0 : (0 : ℚ) ≤ (k : ℚ) * step :=
      mul_nonneg (Nat.cast_nonneg k) (le_of_lt hstep_pos)
    refine ⟨by linarith, ?_⟩
    have hq : (0 : ℚ) ≤ (maxS - minS)/step := div_nonneg (by linarith) (le_of_lt hstep_pos)
    have hfl : (0 : ℤ) ≤ ⌊(maxS - minS)/step⌋ := Int.floor_nonneg.mpr hq
    have hk2 : (k : ℤ) ≤ ⌊(maxS - minS)/step⌋ := by omega
    have hk3 : (k : ℚ) ≤ (maxS - minS)/step := by
      calc (k : ℚ) ≤ ((⌊(maxS - minS)/step⌋ : ℤ) : ℚ) := by exact_mod_cast hk2
      _ ≤ (maxS - minS)/step := Int.floor_le _
    have hk4 : (k : ℚ) * step ≤ maxS - minS := (le_div_iff hstep_pos).mp hk3
    linarith
  · simp at hx

theorem getStockPrice_pos (s : String) (r : ℚ) (hr : 0 ≤ r) :
    0 < MockGen.getStockPrice s r := by
  unfold MockGen.getStockPrice
  cases hl : MockGen.stockPrices.lookup s with
  | none =>
    have h2 : (0 : ℚ) ≤ r * 100 := mul_nonneg hr (by norm_num)
    dsimp only
    linarith
  | some p =>
    have hmem : (s, p) ∈ MockGen.stockPrices := by
      obtain ⟨l1, l2, he, -⟩ := List.lookup_eq_some_iff.mp hl
      rw [he]
      exact List.mem_append_right _ (List.mem_cons_self _ _)
    have hall : ∀ q ∈ MockGen.stockPrices, 0 < q.2 := by
      intro q hq
      fin_cases hq <;> norm_num
    exact hall _ hmem

theorem price_pos (spot strike tte vol rate : ℚ) (side : Side) (sqrtT iF tv otm : ℚ)
    (hs : 0 < spot) (hv : 0 < vol) (hq : 0 < sqrtT) (hiF0 : 0 < iF) (hiF1 : iF ≤ 1)
    (htv : 0 ≤ tv) (hotm : 0 ≤ otm) :
    0 < MockGen.calculateRealisticOptionPrice spot strike tte vol rate side sqrtT iF tv otm := by
  unfold MockGen.calculateRealisticOptionPrice
  have htval : 0 < vol * sqrtT * spot * (0.4 + tv * 0.1) := by positivity
  cases side <;> dsimp only <;> split_ifs with h
  · have h2 : 0 < 1 - iF * 0.1 := by nlinarith
    nlinarith
  · nlinarith
  · have h2 : 0 < 1 - iF * 0.1 := by nlinarith
    nlinarith
  · nlinarith

theorem mkContract_bounds (symbol expiry : String) (di : ℕ) (strike price : ℚ) (side : Side)
    (de : MockGen.DateEnv) (ce : MockGen.ContractEnv)
    (hde : de.Valid) (hce : ce.Valid) (hp : 0 < price) :
    (MockGen.mkContract symbol expiry di strike price side de ce).bid
      ≤ (MockGen.mkContract symbol expiry di strike price side de ce).lastPrice ∧
    (MockGen.mkContract symbol expiry di strike price side de ce).lastPrice
      ≤ (MockGen.mkContract symbol expiry di strike price side de ce).ask ∧
    0 ≤ (MockGen.mkContract symbol expiry di strike price side de ce).bid ∧
    0 ≤ (MockGen.mkContract symbol expiry di strike price side de ce).lastPrice ∧
    0 ≤ (MockGen.mkContract symbol expiry di strike price side de ce).ask ∧
    0 ≤ (MockGen.mkContract symbol expiry di strike price side de ce).volume ∧
    0 ≤ (MockGen.mkContract symbol expiry di strike price side de ce).openInterest ∧
    (MockGen.mkContract symbol expiry di strike price side de ce).strike = strike := by
  obtain ⟨hrf, hsq, hif0, hif1⟩ := hde
  obtain ⟨hiv, hdi2, hprr, hot, hsp, hch, hvo, hoi, hdr, hre, hco⟩ := hce
  have hVpos : 0 < roundTo 4 ((0.25 + (di : ℚ) * 0.03 + |1 - strike/price| * 0.2) *
      (1 + (ce.ivRand * 0.4 - 0.2))) :=
    lt_of_lt_of_le (by norm_num) (vol_lower di _ ce.ivRand (abs_nonneg _) hiv.1 hiv.2)
  have hP : 0 < MockGen.calculateRealisticOptionPrice price strike de.tte
      (roundTo 4 ((0.25 + (di : ℚ) * 0.03 + |1 - strike/price| * 0.2) *
        (1 + (ce.ivRand * 0.4 - 0.2))))
      (roundTo 3 (4.2 + (di : ℚ) * 0.13 + (de.rfRand * 0.18 - 0.09)) / 100) side
      de.sqrtT de.interestFactor ce.priceRand ce.otmRand :=
    price_pos _ _ _ _ _ _ _ _ _ _ hp hVpos hsq hif0 hif1 hprr.1 hot.1
  simp only [MockGen.mkContract]
  set P := MockGen.calculateRealisticOptionPrice price strike de.tte
      (roundTo 4 ((0.25 + (di : ℚ) * 0.03 + |1 - strike/price| * 0.2) *
        (1 + (ce.ivRand * 0.4 - 0.2))))
      (roundTo 3 (4.2 + (di : ℚ) * 0.13 + (de.rfRand * 0.18 - 0.09)) / 100) side
      de.sqrtT de.interestFactor ce.priceRand ce.otmRand with hPdef
  have hsprd : 0 ≤ P * (0.03 + ce.spreadRand * 0.04) := by nlinarith [hsp.1]
  have hbid0 : 0 ≤ P - P * (0.03 + ce.spreadRand * 0.04) / 2 := by nlinarith [hsp.1, hsp.2]
  have hfl : (0 : ℤ) ≤ ⌊ce.volumeRand * 1000⌋ :=
    Int.floor_nonneg.mpr (mul_nonneg hvo.1 (by norm_num))
  have hfl2 : (0 : ℤ) ≤ ⌊ce.oiRand * 5000⌋ :=
    Int.floor_nonneg.mpr (mul_nonneg hoi.1 (by norm_num))
  refine ⟨roundTo_mono 2 (by nlinarith), roundTo_mono 2 (by nlinarith),
    roundTo_nonneg 2 hbid0, roundTo_nonneg 2 (le_of_lt hP),
    roundTo_nonneg 2 (by nlinarith), ?_, ?_, trivial⟩
  · split_ifs <;>
      (push_cast
       have hq : (0 : ℚ) ≤ ((⌊ce.volumeRand * 1000⌋ : ℤ) : ℚ) := by exact_mod_cast hfl
       nlinarith)
  · split_ifs <;>
      (push_cast
       have hq : (0 : ℚ) ≤ ((⌊ce.oiRand * 5000⌋ : ℤ) : ℚ) := by exact_mod_cast hfl2
       nlinarith)

theorem exists_of_mem_generateMockOptions {symbol : String} {dates : List String}
    {strikes : List ℚ} {side : Side} {price : ℚ} {denv : ℕ → MockGen.DateEnv}
    {cenv : ℕ → ℕ → MockGen.ContractEnv} {o : OptionContract}
    (ho : o ∈ MockGen.generateMockOptions symbol dates strikes side price denv cenv) :
    ∃ di d si k, dates.get? di = some d ∧ strikes.get? si = some k ∧ k ∈ strikes ∧
      o = MockGen.mkContract symbol d di k price side (denv di) (cenv di si) := by
  unfold MockGen.generateMockOptions at ho
  rw [List.mem_flatMap] at ho
  obtain ⟨⟨di, d⟩, hd, ho⟩ := ho
  rw [List.mem_map] at ho
  obtain ⟨⟨si, k⟩, hk, rfl⟩ := ho
  have hk2 := List.mem_enum_iff_get?.mp hk
  exact ⟨di, d, si, k, List.mem_enum_iff_get?.mp hd, hk2, List.get?_mem hk2, rfl⟩

theorem mem_generateMockOptions_of {symbol : String} {dates : List String}
    {strikes : List ℚ} {side : Side} {price : ℚ} {denv : ℕ → MockGen.DateEnv}
    {cenv : ℕ → ℕ → MockGen.ContractEnv} {di si : ℕ} {d : String} {k : ℚ}
    (hd : dates.get? di = some d) (hk : strikes.get? si = some k) :
    MockGen.mkContract symbol d di k price side (denv di) (cenv di si)
      ∈ MockGen.generateMockOptions symbol dates strikes side price denv cenv := by
  unfold MockGen.generateMockOptions
  rw [List.mem_flatMap]
  exact ⟨(di, d), List.mem_enum_iff_get?.mpr hd,
    List.mem_map.mpr ⟨(si, k), List.mem_enum_iff_get?.mpr hk, rfl⟩⟩

/-- C4: every contract of every chain produced by `generateMockOptionsData`
under a valid environment satisfies `bid ≤ lastPrice ≤ ask` with all three
nonnegative (in particular the bid, though never explicitly floored in this
source file, cannot go below 0: the half-spread is at most 3.5 percent of
the positive raw price), `volume ≥ 0`, `openInterest ≥ 0`, and
`strike ∈ [strikeRange.min, strikeRange.max]`. -/
theorem c4_price_bounds (symbol : String) (g : MockGen.GenEnv) (hg : g.Valid)
    (o : OptionContract)
    (ho : o ∈ (MockGen.generateMockOptionsData symbol g).calls ∨
          o ∈ (MockGen.generateMockOptionsData symbol g).puts) :
    o.bid ≤ o.lastPrice ∧ o.lastPrice ≤ o.ask ∧
    0 ≤ o.bid ∧ 0 ≤ o.lastPrice ∧ 0 ≤ o.ask ∧
    0 ≤ o.volume ∧ 0 ≤ o.openInterest ∧
    (MockGen.generateMockOptionsData symbol g).strikeRange.min ≤ o.strike ∧
    o.strike ≤ (MockGen.generateMockOptionsData symbol g).strikeRange.max := by
  obtain ⟨hpr0, hpr1, hdc, hdp, hcc, hcp⟩ := hg
  have hp : 0 < MockGen.getStockPrice symbol g.priceRand := getStockPrice_pos _ _ hpr0
  have hminDec : TwoDec (max 1 (roundTo 2 (MockGen.getStockPrice symbol g.priceRand * 0.7))) :=
    twoDec_max twoDec_one (twoDec_roundTo _)
  have hstepDec : TwoDec (MockGen.getStrikeIncrement (MockGen.getStockPrice symbol g.priceRand)) :=
    twoDec_getStrikeIncrement _
  simp only [MockGen.generateMockOptionsData] at ho ⊢
  rcases ho with ho | ho
  · obtain ⟨di, d, si, k, hd, hk, hkmem, rfl⟩ := exists_of_mem_generateMockOptions ho
    obtain ⟨hs1, hs2⟩ := mem_strikesFor hminDec hstepDec hkmem
    have hb := mkContract_bounds symbol d di k (MockGen.getStockPrice symbol g.priceRand)
      Side.call (g.denvCalls di) (g.cenvCalls di si) (hdc di) (hcc di si) hp
    rw [hb.2.2.2.2.2.2.2]
    exact ⟨hb.1, hb.2.1, hb.2.2.1, hb.2.2.2.1, hb.2.2.2.2.1, hb.2.2.2.2.2.1,
      hb.2.2.2.2.2.2.1, hs1, hs2⟩
  · obtain ⟨di, d, si, k, hd, hk, hkmem, rfl⟩ := exists_of_mem_generateMockOptions ho
    obtain ⟨hs1, hs2⟩ := mem_strikesFor hminDec hstepDec hkmem
    have hb := mkContract_bounds symbol d di k (MockGen.getStockPrice symbol g.priceRand)
      Side.put (g.denvPuts di) (g.cenvPuts di si) (hdp di) (hcp di si) hp
    rw [hb.2.2.2.2.2.2.2]
    exact ⟨hb.1, hb.2.1, hb.2.2.1, hb.2.2.2.1, hb.2.2.2.2.1, hb.2.2.2.2.2.1,
      hb.2.2.2.2.2.2.1, hs1, hs2⟩

/-- The first call of the chain synthesized for the unknown symbol "ZZZZ"
(fallback price 200) under `sampleGenEnv`. -/
def c4WitnessContract : OptionContract :=
  MockGen.mkContract "ZZZZ" "2026-01-16" 0 140
    (MockGen.getStockPrice "ZZZZ" sampleGenEnv.priceRand)
    Side.call (sampleGenEnv.denvCalls 0) (sampleGenEnv.cenvCalls 0 0)

theorem c4_price_bounds_witness :
    c4WitnessContract.bid ≤ c4WitnessContract.lastPrice ∧
    c4WitnessContract.lastPrice ≤ c4WitnessContract.ask ∧
    0 ≤ c4WitnessContract.bid ∧ 0 ≤ c4WitnessContract.volume ∧
    (MockGen.generateMockOptionsData "ZZZZ" sampleGenEnv).strikeRange.min
      ≤ c4WitnessContract.strike := by
  have hval : sampleGenEnv.Valid := by
    refine ⟨by norm_num [sampleGenEnv], by norm_num [sampleGenEnv],
      fun i => ?_, fun i => ?_, fun i j => ?_, fun i j => ?_⟩ <;>
      norm_num [sampleGenEnv, sampleDateEnv, sampleContractEnv,
        MockGen.DateEnv.Valid, MockGen.ContractEnv.Valid, MockGen.unitRand]
  have hlook : MockGen.stockPrices.lookup "ZZZZ" = none := rfl
  have hprice : MockGen.getStockPrice "ZZZZ" sampleGenEnv.priceRand = 200 := by
    unfold MockGen.getStockPrice
    rw [hlook]
    norm_num [sampleGenEnv]
  have hd : sampleGenEnv.dates.get? 0 = some "2026-01-16" := rfl
  have hk : (MockGen.strikesFor
      (max 1 (roundTo 2 (MockGen.getStockPrice "ZZZZ" sampleGenEnv.priceRand * 0.7)))
      (roundTo 2 (MockGen.getStockPrice "ZZZZ" sampleGenEnv.priceRand * 1.3))
      (MockGen.getStrikeIncrement
        (MockGen.getStockPrice "ZZZZ" sampleGenEnv.priceRand))).get? 0 = some 140 := by
    rw [hprice]
    have hmin : max (1 : ℚ) (roundTo 2 (200 * 0.7)) = 140 := by
      rw [show roundTo 2 ((200 : ℚ) * 0.7) = 140 by norm_num [roundTo, round_eq]]
      exact max_eq_right (by norm_num)
    have hmax : roundTo 2 ((200 : ℚ) * 1.3) = 260 := by norm_num [roundTo, round_eq]
    have hstep : MockGen.getStrikeIncrement 200 = 10 := by
      norm_num [MockGen.getStrikeIncrement]
    rw [hmin, hmax, hstep]
    unfold MockGen.strikesFor
    rw [if_pos (by norm_num : (0 : ℚ) < 10 ∧ (140 : ℚ) ≤ 260)]
    have hcount : (⌊((260 : ℚ) - 140)/10⌋).toNat + 1 = 13 := by
      rw [show ⌊((260 : ℚ) - 140)/10⌋ = 12 by norm_num]
      rfl
    rw [hcount, List.get?_map]
    rw [show (List.range 13).get? 0 = some 0 from rfl]
    rw [Option.map_some']
    rw [show roundTo 2 (140 + ((0 : ℕ) : ℚ) * 10) = 140 by norm_num [roundTo, round_eq]]
  have hmem : c4WitnessContract ∈ (MockGen.generateMockOptionsData "ZZZZ" sampleGenEnv).calls := by
    simp only [MockGen.generateMockOptionsData]
    exact mem_generateMockOptions_of hd hk
  have happ := c4_price_bounds "ZZZZ" sampleGenEnv hval c4WitnessContract (Or.inl hmem)
  exact ⟨happ.1, happ.2.1, happ.2.2.1, happ.2.2.2.2.2.1, happ.2.2.2.2.2.2.2.1⟩

/-! ## Claim C7: sorting -/

/-- Fuelled, structurally recursive copy of `List.merge`, used to evaluate
concrete sorts (the library versions are defined by well-founded recursion
and do not reduce definitionally). -/
def mergeFuel {α : Type} (le : α → α → Bool) : ℕ → List α → List α → List α
  | 0, xs, ys => xs ++ ys
  | _ + 1, [], ys => ys
  | _ + 1, x :: xs, [] => x :: xs
  | f + 1, x :: xs, y :: ys =>
    if le x y then x :: mergeFuel le f xs (y :: ys) else y :: mergeFuel le f (x :: xs) ys

theorem mergeFuel_eq {α : Type} (le : α → α → Bool) :
    ∀ (f : ℕ) (xs ys : List α), xs.length + ys.length ≤ f →
      mergeFuel le f xs ys = xs.merge ys le := by
  intro f
  induction f with
  | zero =>
    intro xs ys h
    have hx : xs = [] := List.length_eq_zero.mp (by omega)
    have hy : ys = [] := List.length_eq_zero.mp (by omega)
    subst hx
    subst hy
    simp [mergeFuel]
  | succ f ih =>
    intro xs ys h
    cases xs with
    | nil => simp [mergeFuel]
    | cons x xs =>
      cases ys with
      | nil => simp [mergeFuel]
      | cons y ys =>
        rw [List.cons_merge_cons]
        simp only [mergeFuel]
        simp only [List.length_cons] at h
        by_cases hle : le x y
        · rw [if_pos hle, if_pos hle, ih xs (y :: ys) (by simp; omega)]
        · rw [if_neg hle, if_neg hle, ih (x :: xs) ys (by simp; omega)]

/-- Fuelled, structurally recursive copy of `List.mergeSort`. -/
def msortFuel {α : Type} (le : α → α → Bool) : ℕ → List α → List α
  | 0, l => l
  | f + 1, l =>
    match l with
    | [] => []
    | [a] => [a]
    | a :: b :: xs =>
      let n := (a :: b :: xs).length
      mergeFuel le (n + n)
        (msortFuel le f ((a :: b :: xs).take ((n + 1) / 2)))
        (msortFuel le f ((a :: b :: xs).drop ((n + 1) / 2)))

theorem msortFuel_eq {α : Type} (le : α → α → Bool) :
    ∀ (f : ℕ) (l : List α), l.length ≤ f → msortFuel le f l = l.mergeSort le := by
  intro f
  induction f with
  | zero =>
    intro l h
    have hx : l = [] := List.length_eq_zero.mp (by omega)
    subst hx
    simp [msortFuel]
  | succ f ih =>
    intro l h
    match l with
    | [] => simp [msortFuel]
    | [a] => simp [msortFuel]
    | a :: b :: xs =>
      rw [List.mergeSort]
      simp only [msortFuel, List.splitInTwo_fst, List.splitInTwo_snd, List.length_cons] at *
      have hlen : xs.length + 1 + 1 ≤ f + 1 := h
      have h1 : ((a :: b :: xs).take ((xs.length + 1 + 1 + 1) / 2)).length ≤ f := by
        simp [List.length_take]
        omega
      have h2 : ((a :: b :: xs).drop ((xs.length + 1 + 1 + 1) / 2)).length ≤ f := by
        simp [List.length_drop]
        omega
      rw [ih _ h1, ih _ h2]
      rw [mergeFuel_eq]
      rw [List.length_mergeSort, List.length_mergeSort]
      simp [List.length_take, List.length_drop]
      omega

/-- A contract distinguished by name, carrying only a delta sort key. -/
def cDelta (name : String) (d : Option ℚ) : OptionContract :=
  { plainContract name 100 with delta := d }

/-- An 8-contract sequence mixing defined and undefined delta keys. -/
def c7List : List OptionContract :=
  [cDelta "A" (some 9), cDelta "B" none, cDelta "C" none, cDelta "D" (some 5),
   cDelta "E" (some 5), cDelta "F" none, cDelta "G" none, cDelta "H" none]

/-- C7, counterexample to the claim as stated: sorting `c7List` by delta
ascending moves contract E in front of contract D although both have the
same (defined) delta key 5 and D precedes E in the input — the comparator
treats `undefined` as equal to everything, which destroys transitivity, and
the stable merge then reorders an equal-key pair across the two halves. -/
theorem c7_counterexample :
    Table.keyVal Table.SortKey.delta (cDelta "D" (some 5))
      = Table.keyVal Table.SortKey.delta (cDelta "E" (some 5)) ∧
    cDelta "D" (some 5) ≠ cDelta "E" (some 5) ∧
    Table.getSortedOptions c7List (some (Table.SortKey.delta, Table.Direction.asc))
      = [cDelta "E" (some 5), cDelta "A" (some 9), cDelta "B" none, cDelta "C" none,
         cDelta "D" (some 5), cDelta "F" none, cDelta "G" none, cDelta "H" none] := by
  refine ⟨rfl, by decide, ?_⟩
  unfold Table.getSortedOptions
  dsimp only
  rw [← msortFuel_eq (Table.sortLE Table.SortKey.delta Table.Direction.asc) 8 c7List (by decide)]
  decide

theorem filter_mergeSort_stable_of {α β : Type} (le : α → α → Bool) (R : β → β → Bool)
    (g : α → β) (l : List α)
    (hasymm : ∀ x y, R x y = true → R y x = false)
    (hcotrans : ∀ x y z, R x z = true → R x y = true ∨ R y z = true)
    (hag : ∀ a ∈ l, ∀ b ∈ l, le a b = !(R (g b) (g a)))
    (p : α → Bool) (hp : ∀ a b, p a = true → p b = true → g a = g b) :
    (l.mergeSort le).filter p = l.filter p := by
  have hirr : ∀ x, R x x = false := by
    intro x
    by_contra hx
    rw [Bool.not_eq_false] at hx
    have h2 := hasymm _ _ hx
    rw [h2] at hx
    exact Bool.noConfusion hx
  have htrans : ∀ (a b c : α), (fun a b => !(R (g b) (g a))) a b →
      (fun a b => !(R (g b) (g a))) b c → (fun a b => !(R (g b) (g a))) a c := by
    intro a b c hab hbc
    simp only [Bool.not_eq_true'] at *
    by_contra hca
    rw [Bool.not_eq_false] at hca
    rcases hcotrans (g c) (g b) (g a) hca with h | h
    · rw [h] at hbc
      exact Bool.noConfusion hbc
    · rw [h] at hab
      exact Bool.noConfusion hab
  have htotal : ∀ (a b : α), (fun a b => !(R (g b) (g a))) a b ||
      (fun a b => !(R (g b) (g a))) b a := by
    intro a b
    by_contra hcon
    simp only [Bool.or_eq_true, Bool.not_eq_true', not_or, Bool.not_eq_false] at hcon
    have h2 := hasymm _ _ hcon.1
    rw [h2] at hcon
    exact Bool.noConfusion hcon.2
  have hms : l.mergeSort le = l.mergeSort (fun a b => !(R (g b) (g a))) := by
    have hmap := List.map_mergeSort (r := le) (s := fun a b => !(R (g b) (g a)))
      (f := id) (l := l) (fun a ha b hb => by simpa using hag a ha b hb)
    simpa using hmap
  rw [hms]
  have hpf : ∀ a ∈ l.filter p, ∀ b ∈ l.filter p, (fun a b => !(R (g b) (g a))) a b = true := by
    intro a ha b hb
    have hg := hp a b (List.mem_filter.mp ha).2 (List.mem_filter.mp hb).2
    simp [hg, hirr]
  have hpair : (l.filter p).Pairwise (fun a b => (fun a b => !(R (g b) (g a))) a b = true) :=
    List.pairwise_of_forall_mem_list hpf
  have hsub : (l.filter p).Sublist (l.mergeSort (fun a b => !(R (g b) (g a)))) :=
    List.sublist_mergeSort htrans htotal hpair (List.filter_sublist l)
  have hperm : List.Perm ((l.mergeSort (fun a b => !(R (g b) (g a)))).filter p) (l.filter p) :=
    (List.mergeSort_perm l _).filter p
  have h0 : (l.filter p).filter p = l.filter p := by
    rw [List.filter_eq_self]
    intro a ha
    exact (List.mem_filter.mp ha).2
  have hsub2 : (l.filter p).Sublist ((l.mergeSort (fun a b => !(R (g b) (g a)))).filter p) := by
    have hx := hsub.filter p
    rw [h0] at hx
    exact hx
  exact (hsub2.eq_of_length hperm.length_eq.symm).symm

/-- The strict order that the comparator induces on a defined key payload,
oriented by the sort direction: the merge switch of the engine sort equals
the negation of this relation applied to the swapped extracted keys. -/
def ltByDir {β : Type} [LinearOrder β] : Table.Direction → β → β → Bool
  | .asc, x, y => decide (x < y)
  | .desc, x, y => decide (y < x)

theorem ltByDir_asymm {β : Type} [LinearOrder β] (dir : Table.Direction) :
    ∀ x y : β, ltByDir dir x y = true → ltByDir dir y x = false := by
  cases dir <;>
  · intro x y h
    simp only [ltByDir, decide_eq_true_eq] at h
    simp only [ltByDir, decide_eq_false_iff_not]
    exact asymm h

theorem ltByDir_cotrans {β : Type} [LinearOrder β] (dir : Table.Direction) :
    ∀ x y z : β, ltByDir dir x z = true → ltByDir dir x y = true ∨ ltByDir dir y z = true := by
  cases dir
  · intro x y z h
    simp only [ltByDir, decide_eq_true_eq] at h ⊢
    rcases lt_or_le x y with h2 | h2
    · exact Or.inl h2
    · exact Or.inr (h2.trans_lt h)
  · intro x y z h
    simp only [ltByDir, decide_eq_true_eq] at h ⊢
    rcases lt_or_le z y with h2 | h2
    · exact Or.inr h2
    · exact Or.inl (h2.trans_lt h)

/-- The numeric payload of a defined numeric sort-key value (0 when the
key is undefined or a string; only used under a definedness hypothesis). -/
def Table.numVal (k : Table.SortKey) (o : OptionContract) : ℚ :=
  match Table.keyVal k o with
  | some (.num q) => q
  | _ => 0

theorem keyVal_eq_num (k : Table.SortKey) (hk : k ≠ Table.SortKey.expiryDate)
    (o : OptionContract) (h : (Table.keyVal k o).isSome) :
    Table.keyVal k o = some (Table.KeyVal.num (Table.numVal k o)) := by
  cases k
  case expiryDate => exact absurd rfl hk
  case timeToExpiry =>
    rcases ho : o.timeToExpiry with _ | q
    · simp [Table.keyVal, ho] at h
    · simp [Table.keyVal, Table.numVal, ho]
  case riskFreeRate =>
    rcases ho : o.riskFreeRate with _ | q
    · simp [Table.keyVal, ho] at h
    · simp [Table.keyVal, Table.numVal, ho]
  case predictedVolatility =>
    rcases ho : o.predictedVolatility with _ | q
    · simp [Table.keyVal, ho] at h
    · simp [Table.keyVal, Table.numVal, ho]
  case volatilityDifference =>
    rcases ho : o.volatilityDifference with _ | q
    · simp [Table.keyVal, ho] at h
    · simp [Table.keyVal, Table.numVal, ho]
  case delta =>
    rcases ho : o.delta with _ | q
    · simp [Table.keyVal, ho] at h
    · simp [Table.keyVal, Table.numVal, ho]
  all_goals rfl

theorem sortLE_eq_num (k : Table.SortKey) (dir : Table.Direction) (a b : OptionContract)
    (na nb : ℚ) (ha : Table.keyVal k a = some (Table.KeyVal.num na))
    (hb : Table.keyVal k b = some (Table.KeyVal.num nb)) :
    Table.sortLE k dir a b = !(ltByDir dir nb na) := by
  simp only [Table.sortLE, Table.sortCompare, ha, hb, Table.KeyVal.lt]
  cases dir <;> rcases lt_trichotomy na nb with h | h | h <;>
    first
      | simp [ltByDir, h, asymm h]
      | simp [ltByDir, h, lt_irrefl]

theorem sortLE_eq_str (dir : Table.Direction) (a b : OptionContract) :
    Table.sortLE Table.SortKey.expiryDate dir a b
      = !(ltByDir dir b.expiryDate a.expiryDate) := by
  simp only [Table.sortLE, Table.sortCompare, Table.keyVal, Table.KeyVal.lt]
  cases dir <;> rcases lt_trichotomy a.expiryDate b.expiryDate with h | h | h <;>
    first
      | simp [ltByDir, h, asymm h]
      | simp [ltByDir, h, lt_irrefl]

theorem sortCompare_undef (k : Table.SortKey) (dir : Table.Direction) (a b : OptionContract)
    (h : Table.keyVal k a = none ∨ Table.keyVal k b = none) :
    Table.sortCompare k dir a b = 0 := by
  rcases ha : Table.keyVal k a with _ | va <;> rcases hb : Table.keyVal k b with _ | vb <;>
    simp_all [Table.sortCompare]

/-- C7, amended: the comparator returns 0 (ties) whenever either side's
sort-key value is undefined, and a null sort config leaves the sequence
unchanged.  The claimed stability holds on any sequence in which every
contract has a DEFINED value for the sort key — contracts of any fixed key
value then keep their input order: filtering the sorted sequence by a key
value yields the same subsequence as filtering the input — and also on any
sequence in which every contract's key value is undefined (the sort is then
the identity).  On mixed sequences the claim is false (`c7_counterexample`):
undefined values destroy the comparator's transitivity, and the sort can
reorder two contracts with equal defined keys. -/
theorem c7_sorting (l : List OptionContract) (k : Table.SortKey) (dir : Table.Direction) :
    (∀ a b : OptionContract,
        Table.keyVal k a = none ∨ Table.keyVal k b = none →
        Table.sortCompare k dir a b = 0) ∧
    Table.getSortedOptions l none = l ∧
    ((∀ o ∈ l, (Table.keyVal k o).isSome) → ∀ v : Table.KeyVal,
        (Table.getSortedOptions l (some (k, dir))).filter
            (fun o => decide (Table.keyVal k o = some v)) =
          l.filter (fun o => decide (Table.keyVal k o = some v))) ∧
    ((∀ o ∈ l, Table.keyVal k o = none) →
        Table.getSortedOptions l (some (k, dir)) = l) := by
  refine ⟨sortCompare_undef k dir, rfl, ?_, ?_⟩
  · intro hdef v
    unfold Table.getSortedOptions
    dsimp only
    by_cases hk : k = Table.SortKey.expiryDate
    · subst hk
      apply filter_mergeSort_stable_of (Table.sortLE Table.SortKey.expiryDate dir)
        (ltByDir dir) (fun o => o.expiryDate) l (ltByDir_asymm dir) (ltByDir_cotrans dir)
      · intro a _ b _
        exact sortLE_eq_str dir a b
      · intro a b hpa hpb
        simp only [decide_eq_true_eq, Table.keyVal, Option.some.injEq] at hpa hpb
        rw [← hpb] at hpa
        exact Table.KeyVal.str.inj hpa
    · apply filter_mergeSort_stable_of (Table.sortLE k dir) (ltByDir dir) (Table.numVal k) l
        (ltByDir_asymm dir) (ltByDir_cotrans dir)
      · intro a ha b hb
        exact sortLE_eq_num k dir a b (Table.numVal k a) (Table.numVal k b)
          (keyVal_eq_num k hk a (hdef a ha)) (keyVal_eq_num k hk b (hdef b hb))
      · intro a b hpa hpb
        simp only [decide_eq_true_eq] at hpa hpb
        simp only [Table.numVal]
        rw [hpa, hpb]
  · intro hnone
    unfold Table.getSortedOptions
    dsimp only
    apply List.mergeSort_of_sorted
    apply List.pairwise_of_forall_mem_list
    intro a ha b hb
    have h0 := sortCompare_undef k dir a b (Or.inl (hnone a ha))
    simp [Table.sortLE, h0]

/-- A four-contract sequence with all strikes defined (two of them equal)
and all deltas undefined, for the amended-claim witness. -/
def c7wList : List OptionContract :=
  [plainContract "a" 5, plainContract "b" 3, plainContract "c" 5, plainContract "d" 1]

theorem c7_sorting_witness :
    ((Table.getSortedOptions c7wList
          (some (Table.SortKey.strike, Table.Direction.asc))).filter
        (fun o => decide (Table.keyVal Table.SortKey.strike o
          = some (Table.KeyVal.num 5))) =
      c7wList.filter
        (fun o => decide (Table.keyVal Table.SortKey.strike o
          = some (Table.KeyVal.num 5)))) ∧
    Table.getSortedOptions c7wList
        (some (Table.SortKey.delta, Table.Direction.desc)) = c7wList :=
  ⟨(c7_sorting c7wList Table.SortKey.strike Table.Direction.asc).2.2.1 (by decide)
      (Table.KeyVal.num 5),
   (c7_sorting c7wList Table.SortKey.delta Table.Direction.desc).2.2.2 (by decide)⟩
